import Mathlib

/-!
# XRouter server: request admission, rate limiting and dispatch

A shallow embedding of `src/xrouter/xrouterserver.cpp` and of the inline members of
`src/xrouter/xroutersettings.h`.

Conventions of the embedding.

* `std::string` is `String`; a raw packet buffer is a `List Char`, one `Char` per byte, the
  terminator of a C string being `Char.ofNat 0`.
* A C++ function that may throw or may read outside a buffer returns `Except Fault _`.
* `std::map` members are total functions into `Option`: `m.count(k)` is `(m k).isSome` and
  `m[k] = v` is `Function.update m k (some v)`.
* A `double` is the rational it denotes (infinities and NaN are not modelled); a product of
  doubles is rounded to the nearest `double`, and `(int)x` truncates towards zero into the
  32-bit `int`.
* Collaborators whose code is outside the two files (ledger, signature check, settings
  look-ups, JSON writer, RPC and shell runners) are the fields of `Env`.
-/

namespace XRouter

deriving instance DecidableEq for Except

/-! ## Faults, commands, JSON values -/

/-- Ways in which a call can fail to return normally: an exception of `std::stoi` that is not
caught, or an access outside a buffer or a container. -/
inductive Fault where
  | invalid_argument
  | out_of_range
  | undefinedBehaviour
  deriving DecidableEq, Repr

/-- The command identifiers of `XRouterCommand` that the server mentions; every other identifier
a packet header can carry is `other id`. -/
inductive XRouterCommand where
  | xrReply
  | xrGetBlockCount
  | xrGetBlockHash
  | xrGetBlock
  | xrGetTransaction
  | xrGetAllBlocks
  | xrGetAllTransactions
  | xrGetBalance
  | xrGetBalanceUpdate
  | xrGetTransactionsBloomFilter
  | xrSendTransaction
  | xrCustomCall
  | other (id : Nat)
  deriving DecidableEq, Repr

/-- A `json_spirit::Value`. -/
inductive Value where
  | null
  | str (s : String)
  | int (i : Int)
  | bool (b : Bool)
  | obj (members : List (String × Value))
  | array (items : List Value)

/-- A `json_spirit::Object`: the ordered list of its pairs. -/
abbrev Object := List (String × Value)

/-- A `json_spirit::Array`. -/
abbrev Array := List Value

/-! ## Strings and numbers -/

/-- The terminator of a C string. -/
def NUL : Char := Char.ofNat 0

/-- The expression `std::string((const char *)data + offset)`: the bytes from `offset` up to
the first terminator. Without a terminator in the rest of the buffer the read leaves the
buffer. -/
def cstrAt (data : List Char) (offset : Nat) : Except Fault String :=
  if NUL ∈ data.drop offset then
    .ok (String.mk ((data.drop offset).takeWhile (fun c => c != NUL)))
  else
    .error .undefinedBehaviour

/-- Arithmetic of `uint32_t`. -/
def wrap32 (n : Nat) : Nat := n % 2 ^ 32

/-- The update `offset += s.size() + 1` of a `uint32_t` offset. -/
def advance (offset : Nat) (s : String) : Nat := wrap32 (offset + s.length + 1)

/-- The predicate `isspace` of the C locale. -/
def isspace (c : Char) : Bool :=
  c.toNat = 32 || (9 ≤ c.toNat && c.toNat ≤ 13)

/-- Value of a run of decimal digits, most significant first. -/
def digitsValue (ds : List Char) : Nat :=
  ds.foldl (fun acc d => 10 * acc + (d.toNat - 48)) 0

/-- Sign and remaining text of a number, as `strtol` reads them. -/
def splitSign : List Char → Bool × List Char
  | '-' :: rest => (true, rest)
  | '+' :: rest => (false, rest)
  | cs => (false, cs)

/-- The function `std::stoi(s)` in base 10: leading white space is skipped, an optional sign and
the longest run of digits are read, text after the digits is ignored. It throws
`std::invalid_argument` without a digit and `std::out_of_range` outside `int`. -/
def stoi (s : String) : Except Fault Int :=
  let body := splitSign (s.data.dropWhile isspace)
  let ds := body.2.takeWhile Char.isDigit
  if ds = [] then .error .invalid_argument
  else
    let v : Int := if body.1 then -(digitsValue ds : Int) else (digitsValue ds : Int)
    if v < -2147483648 ∨ 2147483647 < v then .error .out_of_range else .ok v

/-- The power `2 ^ k` for an integer `k`. -/
def pow2 (k : Int) : ℚ :=
  if 0 ≤ k then ((2 ^ k.toNat : Nat) : ℚ) else 1 / ((2 ^ (-k).toNat : Nat) : ℚ)

/-- A positive `x` times `2 ^ e`, rescaled by powers of two until the first component lies
between `2 ^ 52` and `2 ^ 53`, the range of the 53-bit significand of a `double`. The fuel of
the callers exceeds the 1100 steps that a `double` or a product of two of them can need. -/
def toSignificand : Nat → ℚ → Int → ℚ × Int
  | 0, x, e => (x, e)
  | fuel + 1, x, e =>
    if x < 4503599627370496 then toSignificand fuel (2 * x) (e - 1)
    else if 9007199254740992 ≤ x then toSignificand fuel (x / 2) (e + 1)
    else (x, e)

/-- The nearest integer, a tie going to the even one. -/
def roundHalfEven (x : ℚ) : Int :=
  if x - x.floor < 1 / 2 then x.floor
  else if 1 / 2 < x - x.floor then x.floor + 1
  else if x.floor % 2 = 0 then x.floor
  else x.floor + 1

/-- The `double` nearest to a positive rational: the significand is rounded to 53 bits, a tie
going to the even significand. -/
def roundPositive (x : ℚ) : ℚ :=
  (roundHalfEven (toSignificand 2200 x 0).1 : ℚ) * pow2 (toSignificand 2200 x 0).2

/-- The `double` nearest to a rational (round to nearest, ties to even), as the value it
denotes. The exponent is not bounded: results beyond the range of `double` or below its
normal numbers differ from IEEE 754, and all of them are outside the range of `int`
respectively below 1 in absolute value, where `castInt` does not tell them apart. -/
def roundToDouble (x : ℚ) : ℚ :=
  if x = 0 then 0 else if x < 0 then -roundPositive (-x) else roundPositive x

/-- The product `x * y` of two `double` values: the exact product rounded to a `double`. -/
def doubleMul (x y : ℚ) : ℚ := roundToDouble (x * y)

/-- The cast `(int)x` of a `double` to the 32-bit `int`: truncation towards zero. Outside the
range of `int` the C++ conversion is undefined; the value is then the one of the x86-64
conversion instruction, the least `int`. -/
def castInt (x : ℚ) : Int :=
  if Int.tdiv x.num x.den < -2147483648 ∨ 2147483647 < Int.tdiv x.num x.den then -2147483648
  else Int.tdiv x.num x.den

/-- Number of ticks of `std::chrono::system_clock` in a millisecond (the clock counts
nanoseconds). -/
def ticksPerMillisecond : Int := 1000000

/-- The conversion `std::chrono::duration_cast<std::chrono::milliseconds>(diff)`. -/
def duration_cast_ms (diff : Int) : Int := Int.tdiv diff ticksPerMillisecond

/-- The call `account.find(":") != string::npos`. -/
def hasColon (account : String) : Bool := account.data.contains ':'

/-- The call `account.substr(0, account.find(":"))`. -/
def beforeColon (account : String) : String :=
  String.mk (account.data.takeWhile (fun c => c != ':'))

/-- The call `account.substr(account.find(":")+1)`. -/
def afterColon (account : String) : String :=
  String.mk ((account.data.dropWhile (fun c => c != ':')).drop 1)

/-- The tokens of `boost::split(out, s, boost::is_any_of(","))`, on the characters of `s`:
empty tokens are kept, so the result is never empty. -/
def splitCommaChars : List Char → List (List Char)
  | [] => [[]]
  | c :: cs =>
    if c = ',' then [] :: splitCommaChars cs
    else
      match splitCommaChars cs with
      | [] => [[c]]
      | t :: ts => (c :: t) :: ts

/-- The tokens of `boost::split(paramtypes, typestring, boost::is_any_of(","))`. -/
def splitComma (typestring : String) : List String :=
  (splitCommaChars typestring.data).map String.mk

/-! ## Ledger, packets, settings and connectors -/

/-- A peer handle `CNode*`, compared by identity. -/
abbrev CNode := Nat

/-- A transaction output `CTxOut`. -/
structure CTxOut where
  nValue : Int
  scriptPubKey : List Char
  deriving DecidableEq, Repr

/-- The unspent outputs `CCoins` of a transaction, as the UTXO view returns them. -/
structure CCoins where
  vout : List CTxOut
  deriving DecidableEq, Repr

/-- A transaction `CTransaction`, as the transaction look-up returns it. -/
structure CTransaction where
  vout : List CTxOut
  deriving DecidableEq, Repr

/-- The variant `CTxDestination`. -/
inductive CTxDestination where
  | CNoDestination
  | CKeyID (id : List Char)
  | CScriptID (id : List Char)
  deriving DecidableEq, Repr

/-- A received `XRouterPacket`: header fields and the bytes that `data()` points to, whose
number is `size()`. -/
structure XRouterPacket where
  command : XRouterCommand
  pubkey : List Char
  signature : List Char
  data : List Char
  deriving DecidableEq, Repr

/-- A packet built by the server: the command given to the constructor and the strings given
to `append`, in order. -/
structure SentPacket where
  command : XRouterCommand
  body : List String
  deriving DecidableEq, Repr

/-- One call `state.DoS(level, error(message), REJECT_INVALID, "xrouter-error")`. -/
structure DoS where
  level : Nat
  message : String
  deriving DecidableEq, Repr

/-- The class `XRouterPluginSettings`: the property tree of `IniConfig` as a map from a key to
its text, and the two texts. -/
structure XRouterPluginSettings where
  m_pt : String → Option String
  rawtext : String
  publictext : String

/-- The default constructor `XRouterPluginSettings()`. -/
instance : Inhabited XRouterPluginSettings := ⟨⟨fun _ => none, "", ""⟩⟩

/-- The class `XRouterSettings`: its own property tree and the plugin registry. -/
structure XRouterSettings where
  m_pt : String → Option String
  plugins : String → Option XRouterPluginSettings
  pluginList : List String

/-- The capability interface of a wallet connector. -/
structure WalletConnectorXRouter where
  currency : String
  getBlockCount : Int
  getBlockHash : String → String
  getBlock : String → Object
  getTransaction : String → Object
  getAllBlocks : Int → Array
  getAllTransactions : String → Int → Int → Array
  getBalance : String → Int → String
  getBalanceUpdate : String → Int → Int → String
  getTransactionsBloomFilter : Int → List Char → Array
  sendTransaction : String → Object

/-- The members of `XRouterServer`. -/
structure XRouterServer where
  m_connectors : List WalletConnectorXRouter
  m_connectorCurrencyMap : String → Option WalletConnectorXRouter
  lastPacketsReceived : CNode → Option (String → Option Int)

/-- The collaborators of the server whose code is outside the two files. -/
structure Env where
  /-- The signature check `packet->verify()`. -/
  verify : XRouterPacket → Bool
  /-- The UTXO view `pcoinsTip->GetCoins(txHash, coins)`. -/
  GetCoins : List Char → Option CCoins
  /-- The look-up `GetTransaction(txHash, txval, hashBlock, true)`. -/
  GetTransaction : List Char → Option CTransaction
  /-- The constant `MIN_BLOCK`. -/
  MIN_BLOCK : Int
  /-- The function `ExtractDestination(scriptPubKey, destination)`. -/
  ExtractDestination : List Char → Option CTxDestination
  /-- The key id `CPubKey(pubkey, pubkey + pubkeySize).GetID()`. -/
  GetID : List Char → List Char
  isAvailableCommand : XRouterSettings → XRouterCommand → String → Bool
  getCommandTimeout : XRouterSettings → XRouterCommand → String → ℚ
  hasPlugin : XRouterSettings → String → Bool
  /-- The member `XRouterPluginSettings::getParam(param, def)`. -/
  getParam : XRouterPluginSettings → String → String → String
  getMaxParamCount : XRouterPluginSettings → Int
  /-- The conversion of a property-tree text to `double`, when it has one. -/
  parseDouble : String → Option ℚ
  XRouterCommand_ToString : XRouterCommand → String
  /-- The writer `json_spirit::write_string(value, true)`. -/
  write_string : Value → String
  /-- The call `xbridge::rpc::CallRPC(user, passwd, ip, port, command, params)`. -/
  CallRPC : String → String → String → String → String → Array → Object
  CallCMD : String → String

/-- The member `IniConfig::get<double>(param, def)` of a plugin's settings: the default is
returned when the key is absent or its text is no number. -/
def get_double (env : Env) (s : XRouterPluginSettings) (param : String) (dflt : ℚ) : ℚ :=
  match s.m_pt param with
  | none => dflt
  | some text => (env.parseDouble text).getD dflt

/-- The member `XRouterSettings::addPlugin`. -/
def addPlugin (cfg : XRouterSettings) (name : String) (s : XRouterPluginSettings) :
    XRouterSettings :=
  { cfg with
    plugins := Function.update cfg.plugins name (some s)
    pluginList := cfg.pluginList ++ [name] }

/-- The member `XRouterSettings::getPluginSettings`, that is `plugins[name]`: a name without
an entry gets a default-constructed one. -/
def getPluginSettings (cfg : XRouterSettings) (name : String) :
    XRouterPluginSettings × XRouterSettings :=
  match cfg.plugins name with
  | some s => (s, cfg)
  | none => (default, { cfg with plugins := Function.update cfg.plugins name (some default) })

/-! ## Connector registry -/

/-- The member `XRouterServer::addConnector`. -/
def addConnector (srv : XRouterServer) (conn : WalletConnectorXRouter) : XRouterServer :=
  { srv with
    m_connectors := srv.m_connectors ++ [conn]
    m_connectorCurrencyMap := Function.update srv.m_connectorCurrencyMap conn.currency (some conn) }

/-- The member `XRouterServer::connectorByCurrency`; `none` is the empty pointer. -/
def connectorByCurrency (srv : XRouterServer) (currency : String) :
    Option WalletConnectorXRouter :=
  if (srv.m_connectorCurrencyMap currency).isSome then srv.m_connectorCurrencyMap currency
  else none

/-! ## Stake check -/

/-- The `uint32_t` read at `packet->data() + 32` (little endian). -/
def readVout (data : List Char) : Nat :=
  wrap32 ((data.getD 32 NUL).toNat + 256 * (data.getD 33 NUL).toNat
    + 65536 * (data.getD 34 NUL).toNat + 16777216 * (data.getD 35 NUL).toNat)

/-- Lines 131 to 151 of `verifyBlockRequirement`: the referenced output, `none` where the
function returns false, a fault where the output list is indexed outside its bounds. -/
def referencedOutput (env : Env) (packet : XRouterPacket) : Except Fault (Option CTxOut) :=
  let txHash := packet.data.take 32
  let vout := readVout packet.data
  match env.GetCoins txHash with
  | some coins =>
    if vout > coins.vout.length then .ok none
    else
      match coins.vout[vout]? with
      | some txOut => .ok (some txOut)
      | none => .error .undefinedBehaviour
  | none =>
    match env.GetTransaction txHash with
    | some txval =>
      match txval.vout[vout]? with
      | some txOut => .ok (some txOut)
      | none => .error .undefinedBehaviour
    | none => .ok none

/-- Lines 153 to 178 of `verifyBlockRequirement`: value and destination of the output. -/
def outputProvesStake (env : Env) (packet : XRouterPacket) (txOut : CTxOut) : Bool :=
  if txOut.nValue < env.MIN_BLOCK then false
  else
    match env.ExtractDestination txOut.scriptPubKey with
    | none => false
    | some (.CKeyID txKeyID) => if env.GetID packet.pubkey != txKeyID then false else true
    | some _ => false

/-- The function `verifyBlockRequirement`. -/
def verifyBlockRequirement (env : Env) (packet : XRouterPacket) : Except Fault Bool :=
  if packet.data.length < 36 then .ok false
  else
    match referencedOutput env packet with
    | .error f => .error f
    | .ok none => .ok false
    | .ok (some txOut) => .ok (outputProvesStake env packet txOut)

/-! ## Handlers of the built-in commands -/

/-- The member `XRouterServer::processGetBlockCount`. -/
def processGetBlockCount (env : Env) (srv : XRouterServer) (_packet : XRouterPacket)
    (_offset : Nat) (currency : String) : Except Fault String :=
  match connectorByCurrency srv currency with
  | some conn => .ok (env.write_string (.obj [("result", .int conn.getBlockCount)]))
  | none =>
    .ok (env.write_string (.obj [("error", .str ("No connector for currency " ++ currency))]))

/-- The member `XRouterServer::processGetBlockHash`. -/
def processGetBlockHash (env : Env) (srv : XRouterServer) (packet : XRouterPacket)
    (offset : Nat) (currency : String) : Except Fault String :=
  match cstrAt packet.data offset with
  | .error f => .error f
  | .ok blockId =>
    match connectorByCurrency srv currency with
    | some conn => .ok (env.write_string (.obj [("result", .str (conn.getBlockHash blockId))]))
    | none =>
      .ok (env.write_string (.obj [("error", .str ("No connector for currency " ++ currency))]))

/-- The member `XRouterServer::processGetBlock`. -/
def processGetBlock (env : Env) (srv : XRouterServer) (packet : XRouterPacket)
    (offset : Nat) (currency : String) : Except Fault String :=
  match cstrAt packet.data offset with
  | .error f => .error f
  | .ok blockHash =>
    match connectorByCurrency srv currency with
    | some conn => .ok (env.write_string (.obj (conn.getBlock blockHash)))
    | none =>
      .ok (env.write_string (.obj [("error", .str ("No connector for currency " ++ currency))]))

/-- The member `XRouterServer::processGetTransaction`. -/
def processGetTransaction (env : Env) (srv : XRouterServer) (packet : XRouterPacket)
    (offset : Nat) (currency : String) : Except Fault String :=
  match cstrAt packet.data offset with
  | .error f => .error f
  | .ok hash =>
    match connectorByCurrency srv currency with
    | some conn => .ok (env.write_string (.obj (conn.getTransaction hash)))
    | none =>
      .ok (env.write_string (.obj [("error", .str ("No connector for currency " ++ currency))]))

/-- The member `XRouterServer::processGetAllBlocks`. -/
def processGetAllBlocks (env : Env) (srv : XRouterServer) (packet : XRouterPacket)
    (offset : Nat) (currency : String) : Except Fault String :=
  match cstrAt packet.data offset with
  | .error f => .error f
  | .ok number_s =>
    match stoi number_s with
    | .error f => .error f
    | .ok number =>
      match connectorByCurrency srv currency with
      | some conn => .ok (env.write_string (.array (conn.getAllBlocks number)))
      | none => .ok (env.write_string (.array []))

/-- The lines `int time = 0; if (account.find(":") != string::npos) ...` shared by three
handlers: the account passed on and the time. -/
def splitAccount (account : String) : Except Fault (String × Int) :=
  if hasColon account then
    match stoi (afterColon account) with
    | .error f => .error f
    | .ok time => .ok (beforeColon account, time)
  else .ok (account, 0)

/-- The member `XRouterServer::processGetAllTransactions`. -/
def processGetAllTransactions (env : Env) (srv : XRouterServer) (packet : XRouterPacket)
    (offset : Nat) (currency : String) : Except Fault String :=
  match cstrAt packet.data offset with
  | .error f => .error f
  | .ok account =>
    match cstrAt packet.data (advance offset account) with
    | .error f => .error f
    | .ok number_s =>
      match stoi number_s with
      | .error f => .error f
      | .ok number =>
        match splitAccount account with
        | .error f => .error f
        | .ok (acc, time) =>
          match connectorByCurrency srv currency with
          | some conn => .ok (env.write_string (.array (conn.getAllTransactions acc number time)))
          | none => .ok (env.write_string (.array []))

/-- The member `XRouterServer::processGetBalance`. -/
def processGetBalance (_env : Env) (srv : XRouterServer) (packet : XRouterPacket)
    (offset : Nat) (currency : String) : Except Fault String :=
  match cstrAt packet.data offset with
  | .error f => .error f
  | .ok account =>
    match splitAccount account with
    | .error f => .error f
    | .ok (acc, time) =>
      match connectorByCurrency srv currency with
      | some conn => .ok (conn.getBalance acc time)
      | none => .ok ""

/-- The member `XRouterServer::processGetBalanceUpdate`. -/
def processGetBalanceUpdate (_env : Env) (srv : XRouterServer) (packet : XRouterPacket)
    (offset : Nat) (currency : String) : Except Fault String :=
  match cstrAt packet.data offset with
  | .error f => .error f
  | .ok account =>
    match cstrAt packet.data (advance offset account) with
    | .error f => .error f
    | .ok number_s =>
      match stoi number_s with
      | .error f => .error f
      | .ok number =>
        match splitAccount account with
        | .error f => .error f
        | .ok (acc, time) =>
          match connectorByCurrency srv currency with
          | some conn => .ok (conn.getBalanceUpdate acc number time)
          | none => .ok ""

/-- The member `XRouterServer::processGetTransactionsBloomFilter`; the stream holds the bytes
of the packet after the number field. -/
def processGetTransactionsBloomFilter (env : Env) (srv : XRouterServer)
    (packet : XRouterPacket) (offset : Nat) (currency : String) : Except Fault String :=
  match cstrAt packet.data offset with
  | .error f => .error f
  | .ok number_s =>
    let stream := packet.data.drop (advance offset number_s)
    match stoi number_s with
    | .error f => .error f
    | .ok number =>
      match connectorByCurrency srv currency with
      | some conn =>
        .ok (env.write_string (.array (conn.getTransactionsBloomFilter number stream)))
      | none => .ok (env.write_string (.array []))

/-- The member `XRouterServer::processSendTransaction`. -/
def processSendTransaction (env : Env) (srv : XRouterServer) (packet : XRouterPacket)
    (offset : Nat) (currency : String) : Except Fault String :=
  match cstrAt packet.data offset with
  | .error f => .error f
  | .ok transaction =>
    match connectorByCurrency srv currency with
    | some conn => .ok (env.write_string (.obj (conn.sendTransaction transaction)))
    | none =>
      .ok (env.write_string (.obj [("error", .str ("No connector for currency " ++ currency)),
        ("errorcode", .str "-100")]))

/-! ## Plugin calls -/

/-- The body of the coercion loop of the rpc path at index `i`: the result is the message of
an early `return` (`Sum.inl`) or the argument list `jsonparams` after the iteration
(`Sum.inr`). Indexing `params` or `paramtypes` outside their bounds is a fault. -/
def rpcParam (paramtypes params : List String) (i : Nat) (jsonparams : Array) :
    Except Fault (String ⊕ Array) :=
  match params[i]? with
  | none => .error .undefinedBehaviour
  | some p =>
    if p = "" then .ok (.inr jsonparams)
    else
      match paramtypes[i]? with
      | none => .error .undefinedBehaviour
      | some t =>
        if t = "string" then .ok (.inr (jsonparams ++ [.str p]))
        else if t = "int" then
          match stoi p with
          | .ok v => .ok (.inr (jsonparams ++ [.int v]))
          | .error _ =>
            .ok (.inl ("Parameter #" ++ toString (i + 1) ++ " can not be converted to integer"))
        else if t = "bool" then
          if p = "true" then .ok (.inr (jsonparams ++ [.bool true]))
          else if p = "false" then .ok (.inr (jsonparams ++ [.bool true]))
          else .ok (.inl ("Parameter #" ++ toString (i + 1) ++ " can not be converted to bool"))
        else .ok (.inr jsonparams)

/-- The coercion loop of the rpc path, `for (int i = 0; i < count; i++)`, with `remaining`
iterations left at index `i`. -/
def rpcParams (paramtypes params : List String) :
    (remaining : Nat) → (i : Nat) → (jsonparams : Array) → Except Fault (String ⊕ Array)
  | 0, _, jsonparams => .ok (.inr jsonparams)
  | remaining + 1, i, jsonparams =>
    match rpcParam paramtypes params i jsonparams with
    | .ok (.inr next) => rpcParams paramtypes params remaining (i + 1) next
    | r => r

/-- The loop `cmd += " " + params[i]` of the shell path. -/
def shellCommand (params : List String) :
    (remaining : Nat) → (i : Nat) → (cmd : String) → Except Fault String
  | 0, _, cmd => .ok cmd
  | remaining + 1, i, cmd =>
    match params[i]? with
    | none => .error .undefinedBehaviour
    | some p => shellCommand params remaining (i + 1) (cmd ++ (" " ++ p))

/-- The member `XRouterServer::processCustomCall`: the returned string and the settings after
the call. -/
def processCustomCall (env : Env) (cfg : XRouterSettings) (name : String)
    (params : List String) : Except Fault String × XRouterSettings :=
  if env.hasPlugin cfg name = false then (.ok "Custom call not found", cfg)
  else
    let ps := getPluginSettings cfg name
    let psettings := ps.1
    let callType := env.getParam psettings "type" ""
    if callType = "rpc" then
      let count := env.getMaxParamCount psettings
      let paramtypes := splitComma (env.getParam psettings "paramsType" "")
      match rpcParams paramtypes params count.toNat 0 [] with
      | .error f => (.error f, ps.2)
      | .ok (.inl message) => (.ok message, ps.2)
      | .ok (.inr jsonparams) =>
        let user := env.getParam psettings "rpcUser" ""
        let passwd := env.getParam psettings "rpcPassword" ""
        let ip := env.getParam psettings "rpcIp" "127.0.0.1"
        let port := env.getParam psettings "rpcPort" ""
        let command := env.getParam psettings "rpcCommand" ""
        (.ok (env.write_string (.obj (env.CallRPC user passwd ip port command jsonparams))), ps.2)
    else if callType = "shell" then
      let count := env.getMaxParamCount psettings
      match shellCommand params count.toNat 0 (env.getParam psettings "cmd" "") with
      | .error f => (.error f, ps.2)
      | .ok cmd => (.ok (env.CallCMD cmd), ps.2)
    else (.ok "Unknown type", ps.2)

/-! ## The request handler -/

/-- How a call of `onMessageReceived` ends. -/
inductive Completion where
  | returned
  | aborted (f : Fault)
  deriving DecidableEq, Repr

/-- What a call of `onMessageReceived` leaves behind: the members of the server and the
settings after it, the calls of `state.DoS`, the packets handed to `sendPacketToClient` with
their peer, and how the call ended. After a fault the fields record what had been done before
it. -/
structure Outcome where
  server : XRouterServer
  settings : XRouterSettings
  dos : List DoS
  sent : List (CNode × SentPacket)
  completion : Completion

/-- The assignment `lastPacketsReceived[node][keystr] = time`. -/
def setLastPacket (m : CNode → Option (String → Option Int)) (node : CNode) (keystr : String)
    (time : Int) : CNode → Option (String → Option Int) :=
  Function.update m node
    (some (Function.update ((m node).getD (fun _ => none)) keystr (some time)))

/-- The rate-limiter block of `onMessageReceived`, lines 219 to 236 for a plugin call and 255
to 272 for a built-in command; the two differ in the text `what` of the message only. The
result is the map after the block and the calls of `state.DoS` it made. -/
def checkLastPacket (lastPacketsReceived : CNode → Option (String → Option Int))
    (node : CNode) (keystr : String) (time : Int) (timeout : ℚ) (what : String) :
    (CNode → Option (String → Option Int)) × List DoS :=
  match lastPacketsReceived node with
  | some perNode =>
    match perNode keystr with
    | some prev_time =>
      let diff := time - prev_time
      let dos :=
        if duration_cast_ms diff < castInt (doubleMul timeout 1000) then [DoS.mk 100 (what ++ keystr)]
        else []
      let m :=
        if (lastPacketsReceived node).isNone then
          Function.update lastPacketsReceived node (some (fun _ => none))
        else lastPacketsReceived
      (setLastPacket m node keystr time, dos)
    | none => (setLastPacket lastPacketsReceived node keystr time, [])
  | none =>
    (setLastPacket (Function.update lastPacketsReceived node (some (fun _ => none)))
      node keystr time, [])

/-- The loop of lines 245 to 249 reading the parameters of a plugin call. -/
def readParams (data : List Char) :
    (remaining : Nat) → (offset : Nat) → (params : List String) → Except Fault (List String)
  | 0, _, params => .ok params
  | remaining + 1, offset, params =>
    match cstrAt data offset with
    | .error f => .error f
    | .ok p => readParams data remaining (advance offset p) (params ++ [p])

/-- Lines 239 to 251: the fee field and the parameters are read and the plugin is called. -/
def customCall (env : Env) (cfg : XRouterSettings) (packet : XRouterPacket) (offset : Nat)
    (psettings : XRouterPluginSettings) (currency : String) :
    Except Fault String × XRouterSettings :=
  match cstrAt packet.data offset with
  | .error f => (.error f, cfg)
  | .ok feetx =>
    match readParams packet.data (env.getMaxParamCount psettings).toNat (advance offset feetx) []
    with
    | .error f => (.error f, cfg)
    | .ok params => processCustomCall env cfg currency params

/-- The `switch` of lines 274 to 308: the reply of the handler, `none` in the default case,
which returns without a reply. -/
def switchCommand (env : Env) (srv : XRouterServer) (packet : XRouterPacket) (offset : Nat)
    (currency : String) : Except Fault (Option String) :=
  match packet.command with
  | .xrGetBlockCount => (processGetBlockCount env srv packet offset currency).map some
  | .xrGetBlockHash => (processGetBlockHash env srv packet offset currency).map some
  | .xrGetBlock => (processGetBlock env srv packet offset currency).map some
  | .xrGetTransaction => (processGetTransaction env srv packet offset currency).map some
  | .xrGetAllBlocks => (processGetAllBlocks env srv packet offset currency).map some
  | .xrGetAllTransactions => (processGetAllTransactions env srv packet offset currency).map some
  | .xrGetBalance => (processGetBalance env srv packet offset currency).map some
  | .xrGetBalanceUpdate => (processGetBalanceUpdate env srv packet offset currency).map some
  | .xrGetTransactionsBloomFilter =>
    (processGetTransactionsBloomFilter env srv packet offset currency).map some
  | .xrSendTransaction => (processSendTransaction env srv packet offset currency).map some
  | _ => .ok none

/-- Lines 311 to 316, after the branch that computed `reply`: a reply packet with the uuid and
the reply is sent; nothing is sent after a fault or the `return` of the default case. -/
def sendReply (srv : XRouterServer) (cfg : XRouterSettings) (dos : List DoS) (node : CNode)
    (uuid : String) : Except Fault (Option String) → Outcome
  | .error f => ⟨srv, cfg, dos, [], .aborted f⟩
  | .ok none => ⟨srv, cfg, dos, [], .returned⟩
  | .ok (some reply) => ⟨srv, cfg, dos, [(node, ⟨.xrReply, [uuid, reply]⟩)], .returned⟩

/-- Lines 212 to 316 of `onMessageReceived`: rate limiter, dispatch and reply of a packet whose
uuid and currency have been read and whose command is available. -/
def routeRequest (env : Env) (srv : XRouterServer) (cfg : XRouterSettings) (node : CNode)
    (packet : XRouterPacket) (time : Int) (uuid currency : String) (offset : Nat) : Outcome :=
  if packet.command = .xrCustomCall then
    let ps := getPluginSettings cfg currency
    let keystr := currency
    let timeout := get_double env ps.1 "timeout" (-1)
    let limiter :=
      if timeout ≥ 0 then
        checkLastPacket srv.lastPacketsReceived node keystr time timeout
          "XRouter: too many requests to plugin "
      else (srv.lastPacketsReceived, [])
    let call := customCall env ps.2 packet offset ps.1 currency
    sendReply { srv with lastPacketsReceived := limiter.1 } call.2 limiter.2 node uuid
      (call.1.map some)
  else
    let keystr := currency ++ "::" ++ env.XRouterCommand_ToString packet.command
    let timeout := env.getCommandTimeout cfg packet.command currency
    let limiter :=
      checkLastPacket srv.lastPacketsReceived node keystr time timeout
        "XRouter: too many requests of type "
    let srv1 := { srv with lastPacketsReceived := limiter.1 }
    sendReply srv1 cfg limiter.2 node uuid (switchCommand env srv1 packet offset currency)

/-- The member `XRouterServer::onMessageReceived`; `time` is the value of
`std::chrono::system_clock::now()` in line 212. -/
def onMessageReceived (env : Env) (srv : XRouterServer) (cfg : XRouterSettings) (node : CNode)
    (packet : XRouterPacket) (time : Int) : Outcome :=
  if env.verify packet = false then
    ⟨srv, cfg, [⟨10, "XRouter: unsigned packet or signature error"⟩], [], .returned⟩
  else
    match verifyBlockRequirement env packet with
    | .error f => ⟨srv, cfg, [], [], .aborted f⟩
    | .ok false => ⟨srv, cfg, [⟨10, "XRouter: block requirement not satisfied"⟩], [], .returned⟩
    | .ok true =>
      match cstrAt packet.data 36 with
      | .error f => ⟨srv, cfg, [], [], .aborted f⟩
      | .ok uuid =>
        match cstrAt packet.data (advance 36 uuid) with
        | .error f => ⟨srv, cfg, [], [], .aborted f⟩
        | .ok currency =>
          if env.isAvailableCommand cfg packet.command currency = false then
            ⟨srv, cfg, [], [], .returned⟩
          else
            routeRequest env srv cfg node packet time uuid currency
              (advance (advance 36 uuid) currency)

/-! ## A concrete configuration, for evaluating the definitions -/

/-- A writer for the values that occur in the examples. -/
def demoWrite : Value → String
  | .obj [(k, .str v)] => k ++ "=" ++ v
  | .obj [(k, .int v)] => k ++ "=" ++ toString v
  | .obj [(k, .array [.int v])] => k ++ "=[" ++ toString v ++ "]"
  | .obj [(k, .array [.str v])] => k ++ "=[" ++ v ++ "]"
  | .array [] => "[]"
  | _ => "?"

/-- Collaborators of the examples: a signature is valid when it is the byte `s`; the ledger
knows the transaction of 32 bytes `a` in its UTXO view, with outputs of value 5000 and 1 paid
to key `k`, and the transaction of 32 bytes `b` by look-up, with one output of value 5000 paid
to key `k`; the key id of a public key is the key itself; every command is available, with a
timeout of 2 seconds; a plugin exists when it has an entry. -/
def demoEnv : Env where
  verify := fun p => p.signature == ['s']
  GetCoins := fun h =>
    if h = List.replicate 32 'a' then some ⟨[⟨5000, ['k']⟩, ⟨1, ['k']⟩]⟩ else none
  GetTransaction := fun h => if h = List.replicate 32 'b' then some ⟨[⟨5000, ['k']⟩]⟩ else none
  MIN_BLOCK := 200
  ExtractDestination := fun script => if script = [] then none else some (.CKeyID script)
  GetID := fun pubkey => pubkey
  isAvailableCommand := fun _ _ _ => true
  getCommandTimeout := fun _ _ _ => 2
  hasPlugin := fun cfg name => (cfg.plugins name).isSome
  getParam := fun s param dflt => (s.m_pt param).getD dflt
  getMaxParamCount := fun s =>
    match stoi ((s.m_pt "paramsCount").getD "0") with
    | .ok n => n
    | .error _ => 0
  parseDouble := fun text =>
    match stoi text with
    | .ok n => some (n : ℚ)
    | .error _ => none
  XRouterCommand_ToString := fun c =>
    match c with
    | .xrGetBlockCount => "xrGetBlockCount"
    | .xrGetBalance => "xrGetBalance"
    | .xrGetAllBlocks => "xrGetAllBlocks"
    | _ => "unknown"
  write_string := demoWrite
  CallRPC := fun _ _ _ _ _ params => [("result", .array params)]
  CallCMD := fun cmd => cmd

/-- Settings without plugins. -/
def demoSettings : XRouterSettings := ⟨fun _ => none, fun _ => none, []⟩

/-- A server without connectors that has not seen any packet. -/
def demoServer : XRouterServer := ⟨[], fun _ => none, fun _ => none⟩

/-- The bytes of a request: the transaction of 32 bytes `c`, the output index `vout` (below
256), then the given fields, each followed by its terminator. -/
def demoData (c : Char) (vout : Nat) (fields : List String) : List Char :=
  List.replicate 32 c ++ [Char.ofNat vout, NUL, NUL, NUL]
    ++ fields.foldr (fun f rest => f.data ++ NUL :: rest) []

/-- A signed request of key `k` with stake in output 0 of the UTXO view. -/
def demoPacket (command : XRouterCommand) (fields : List String) : XRouterPacket :=
  ⟨command, ['k'], ['s'], demoData 'a' 0 fields⟩

/-- A connector for `BTC` at height 12345 that has empty answers otherwise. -/
def demoConnector : WalletConnectorXRouter where
  currency := "BTC"
  getBlockCount := 12345
  getBlockHash := fun _ => ""
  getBlock := fun _ => []
  getTransaction := fun _ => []
  getAllBlocks := fun _ => []
  getAllTransactions := fun _ _ _ => []
  getBalance := fun _ _ => "0"
  getBalanceUpdate := fun _ _ _ => "0"
  getTransactionsBloomFilter := fun _ _ => []
  sendTransaction := fun _ => []

/-- A server with the `BTC` connector that served peer 7 a block count of `BTC` at time 0. -/
def demoServerSeen : XRouterServer :=
  { addConnector demoServer demoConnector with
    lastPacketsReceived := setLastPacket (fun _ => none) 7 "BTC::xrGetBlockCount" 0 }

/-- Settings with the rpc plugin `plug` of one parameter of type `int`, timeout 2 seconds. -/
def demoPluginSettings : XRouterSettings :=
  addPlugin demoSettings "plug"
    ⟨fun key =>
      if key = "type" then some "rpc"
      else if key = "paramsCount" then some "1"
      else if key = "paramsType" then some "int"
      else if key = "timeout" then some "2"
      else none, "", ""⟩

/-- Plugin settings whose property tree holds the given keys and texts. -/
def demoPlugin (entries : List (String × String)) : XRouterPluginSettings :=
  ⟨fun key => entries.lookup key, "", ""⟩

/-- Settings with three plugins: the rpc plugin `mix` of three parameters of types `string`,
`int` and `bool`, the rpc plugin `flag` of one parameter of type `bool`, and the shell plugin
`sh` of two parameters with the base command `echo`; none of them has a timeout. -/
def demoPlugins : XRouterSettings :=
  addPlugin
    (addPlugin
      (addPlugin demoSettings "mix"
        (demoPlugin [("type", "rpc"), ("paramsCount", "3"), ("paramsType", "string,int,bool")]))
      "flag" (demoPlugin [("type", "rpc"), ("paramsCount", "1"), ("paramsType", "bool")]))
    "sh" (demoPlugin [("type", "shell"), ("paramsCount", "2"), ("cmd", "echo")])

/-- A connector for `BTC` whose answers show the arguments it received. -/
def echoConnector : WalletConnectorXRouter where
  currency := "BTC"
  getBlockCount := 12345
  getBlockHash := fun blockId => blockId
  getBlock := fun hash => [("hash", .str hash)]
  getTransaction := fun hash => [("hash", .str hash)]
  getAllBlocks := fun number => [.int number]
  getAllTransactions := fun account number time => [.str account, .int number, .int time]
  getBalance := fun account time => account ++ "@" ++ toString time
  getBalanceUpdate := fun account number time =>
    account ++ "#" ++ toString number ++ "@" ++ toString time
  getTransactionsBloomFilter := fun number _ => [.int number]
  sendTransaction := fun transaction => [("tx", .str transaction)]

/-- The collaborators of `demoEnv`, except that a plugin exists when its name is in the plugin
list. -/
def listedEnv : Env :=
  { demoEnv with hasPlugin := fun cfg name => decide (name ∈ cfg.pluginList) }

/-- The collaborators of `demoEnv`, except that no command is available. -/
def closedEnv : Env :=
  { demoEnv with isAvailableCommand := fun _ _ _ => false }

/-- The collaborators of `demoEnv`, except that the timeout of every command is the `double`
nearest to 0.0015 seconds. -/
def fractionalEnv : Env :=
  { demoEnv with getCommandTimeout := fun _ _ _ => roundToDouble (3 / 2000) }

/-- The collaborators of `demoEnv`, except that the timeout of every command is the `double`
nearest to 0.57 seconds. -/
def roundedEnv : Env :=
  { demoEnv with getCommandTimeout := fun _ _ _ => roundToDouble (57 / 100) }

/-! ## Vocabulary of the statements -/

/-- A packet passes the gates of lines 188 to 210: signature, stake, the two leading fields
`uuid` and `currency`, and the availability of its command. -/
def Admitted (env : Env) (cfg : XRouterSettings) (packet : XRouterPacket)
    (uuid currency : String) : Prop :=
  env.verify packet = true ∧ verifyBlockRequirement env packet = .ok true ∧
    cstrAt packet.data 36 = .ok uuid ∧ cstrAt packet.data (advance 36 uuid) = .ok currency ∧
    env.isAvailableCommand cfg packet.command currency = true

instance (env : Env) (cfg : XRouterSettings) (packet : XRouterPacket) (uuid currency : String) :
    Decidable (Admitted env cfg packet uuid currency) := by
  unfold Admitted
  infer_instance

/-- The rate-limit key `keystr` of lines 216 and 253. -/
def rateKey (env : Env) (command : XRouterCommand) (currency : String) : String :=
  if command = .xrCustomCall then currency
  else currency ++ "::" ++ env.XRouterCommand_ToString command

/-- The `timeout` of lines 217 and 254, in seconds. -/
def rateTimeout (env : Env) (cfg : XRouterSettings) (command : XRouterCommand)
    (currency : String) : ℚ :=
  if command = .xrCustomCall then get_double env (getPluginSettings cfg currency).1 "timeout" (-1)
  else env.getCommandTimeout cfg command currency

/-- The minimum interval in milliseconds, `(int)(timeout * 1000)` of lines 223 and 259. -/
def rateInterval (env : Env) (cfg : XRouterSettings) (command : XRouterCommand)
    (currency : String) : Int :=
  castInt (doubleMul (rateTimeout env cfg command currency) 1000)

/-- The rate limiter runs for the request: always for a built-in command, and for a plugin
call when the timeout of the plugin is not negative (line 218). -/
def limiterRuns (env : Env) (cfg : XRouterSettings) (command : XRouterCommand)
    (currency : String) : Prop :=
  command ≠ .xrCustomCall ∨ 0 ≤ rateTimeout env cfg command currency

instance (env : Env) (cfg : XRouterSettings) (command : XRouterCommand) (currency : String) :
    Decidable (limiterRuns env cfg command currency) := by
  unfold limiterRuns
  infer_instance

/-- The message of the rate-limit penalty, lines 224 and 260. -/
def rateMessage (env : Env) (command : XRouterCommand) (currency : String) : String :=
  (if command = .xrCustomCall then "XRouter: too many requests to plugin "
    else "XRouter: too many requests of type ") ++ rateKey env command currency

/-- The stored time `lastPacketsReceived[node][keystr]`, when both maps have the entry. -/
def lastPacket (srv : XRouterServer) (node : CNode) (keystr : String) : Option Int :=
  (srv.lastPacketsReceived node).bind (fun perNode => perNode keystr)

/-- The ten built-in commands of the `switch` in `onMessageReceived`. -/
def isBuiltin : XRouterCommand → Bool
  | .xrGetBlockCount | .xrGetBlockHash | .xrGetBlock | .xrGetTransaction | .xrGetAllBlocks
  | .xrGetAllTransactions | .xrGetBalance | .xrGetBalanceUpdate
  | .xrGetTransactionsBloomFilter | .xrSendTransaction => true
  | _ => false

/-- The rate limiter throttles a request at `time`: the previous request under the key is
stored and less than `interval` whole milliseconds have passed since (lines 221 to 223). -/
def throttled (prev : Option Int) (time interval : Int) : Bool :=
  match prev with
  | some prev_time => decide (duration_cast_ms (time - prev_time) < interval)
  | none => false

/-- The server after construction: no connector, no packet seen. -/
def freshServer : XRouterServer := ⟨[], fun _ => none, fun _ => none⟩

/-- The server after the registrations `conns`, in order, on a fresh server. -/
def registerAll (conns : List WalletConnectorXRouter) : XRouterServer :=
  conns.foldl addConnector freshServer

/-- The value to which the rpc path is said to coerce a non-empty parameter `p` of declared
type `t`: the text for `string`, the integer that `std::stoi` reads for `int`, the boolean
true for the two literals of `bool`; there is none when the coercion fails or the type is
another one. -/
def coercedValue (t p : String) : Option Value :=
  if t = "string" then some (.str p)
  else if t = "int" then
    match stoi p with
    | .ok v => some (.int v)
    | .error _ => none
  else if t = "bool" then
    if p = "true" ∨ p = "false" then some (.bool true) else none
  else none

/-- The argument list as the specification words it: the coerced values of the non-empty
entries among the first `count` parameters, in their order. -/
def expectedArguments (paramtypes params : List String) (count : Nat) : Array :=
  (((params.take count).zip paramtypes).filter (fun pt => pt.1 ≠ "")).filterMap
    (fun pt => coercedValue pt.2 pt.1)

/-- The command line as the specification words it: the base command followed, for each
parameter in order, by one space and the parameter. -/
def expectedCommandLine (base : String) (params : List String) : String :=
  params.foldl (fun cmd p => cmd ++ " " ++ p) base

/-- Modelled from the spec: the member `XRouterSettings::hasPlugin`, which the header declares
without its body. It tells whether a plugin of the name is configured; the configured names
are those of `pluginList`, which `addPlugin` extends and `getPlugins` returns. -/
def hasPlugin (cfg : XRouterSettings) (name : String) : Bool :=
  decide (name ∈ cfg.pluginList)

/-! ## Lemmas on the parts of the handler -/

@[simp] theorem sendReply_dos (srv : XRouterServer) (cfg : XRouterSettings) (dos : List DoS)
    (node : CNode) (uuid : String) (r : Except Fault (Option String)) :
    (sendReply srv cfg dos node uuid r).dos = dos := by
  rcases r with f | _ | reply <;> rfl

@[simp] theorem sendReply_server (srv : XRouterServer) (cfg : XRouterSettings) (dos : List DoS)
    (node : CNode) (uuid : String) (r : Except Fault (Option String)) :
    (sendReply srv cfg dos node uuid r).server = srv := by
  rcases r with f | _ | reply <;> rfl

@[simp] theorem sendReply_settings (srv : XRouterServer) (cfg : XRouterSettings)
    (dos : List DoS) (node : CNode) (uuid : String) (r : Except Fault (Option String)) :
    (sendReply srv cfg dos node uuid r).settings = cfg := by
  rcases r with f | _ | reply <;> rfl

theorem sendReply_sent (srv : XRouterServer) (cfg : XRouterSettings) (dos : List DoS)
    (node : CNode) (uuid : String) (r : Except Fault (Option String)) :
    ∀ m ∈ (sendReply srv cfg dos node uuid r).sent,
      ∃ reply, r = .ok (some reply) ∧ m = (node, ⟨.xrReply, [uuid, reply]⟩) := by
  rcases r with f | _ | reply <;> simp [sendReply]

theorem checkLastPacket_map (m : CNode → Option (String → Option Int)) (node : CNode)
    (keystr : String) (time : Int) (timeout : ℚ) (what : String) :
    (checkLastPacket m node keystr time timeout what).1 = setLastPacket m node keystr time := by
  unfold checkLastPacket
  cases hn : m node with
  | none => simp [setLastPacket, hn]
  | some perNode => cases hk : perNode keystr <;> simp [hn, hk]

theorem checkLastPacket_dos (m : CNode → Option (String → Option Int)) (node : CNode)
    (keystr : String) (time : Int) (timeout : ℚ) (what : String) :
    (checkLastPacket m node keystr time timeout what).2 =
      if throttled ((m node).bind (fun perNode => perNode keystr)) time
          (castInt (doubleMul timeout 1000)) = true
      then [⟨100, what ++ keystr⟩] else [] := by
  unfold checkLastPacket
  cases hn : m node with
  | none => simp [throttled]
  | some perNode => cases hk : perNode keystr <;> simp [throttled, hk]

theorem setLastPacket_same (m : CNode → Option (String → Option Int)) (node : CNode)
    (keystr : String) (time : Int) :
    (setLastPacket m node keystr time node).bind (fun perNode => perNode keystr) = some time := by
  simp [setLastPacket]

theorem onMessageReceived_of_admitted (env : Env) (srv : XRouterServer) (cfg : XRouterSettings)
    (node : CNode) (packet : XRouterPacket) (time : Int) (uuid currency : String)
    (h : Admitted env cfg packet uuid currency) :
    onMessageReceived env srv cfg node packet time =
      routeRequest env srv cfg node packet time uuid currency
        (advance (advance 36 uuid) currency) := by
  obtain ⟨hv, hs, hu, hc, ha⟩ := h
  simp [onMessageReceived, hv, hs, hu, hc, ha]

theorem routeRequest_limited (env : Env) (srv : XRouterServer) (cfg : XRouterSettings)
    (node : CNode) (packet : XRouterPacket) (time : Int) (uuid currency : String) (offset : Nat)
    (h : limiterRuns env cfg packet.command currency) :
    (routeRequest env srv cfg node packet time uuid currency offset).server.lastPacketsReceived
        = setLastPacket srv.lastPacketsReceived node (rateKey env packet.command currency) time ∧
      (routeRequest env srv cfg node packet time uuid currency offset).dos =
        if throttled (lastPacket srv node (rateKey env packet.command currency)) time
            (rateInterval env cfg packet.command currency) = true
        then [⟨100, rateMessage env packet.command currency⟩] else [] := by
  by_cases hc : packet.command = .xrCustomCall
  · have ht : 0 ≤ get_double env (getPluginSettings cfg currency).1 "timeout" (-1) := by
      rcases h with h | h
      · exact absurd hc h
      · simpa [rateTimeout, hc] using h
    simp [routeRequest, hc, ht, checkLastPacket_map, checkLastPacket_dos, rateKey, rateInterval,
      rateTimeout, rateMessage, lastPacket]
  · simp [routeRequest, hc, checkLastPacket_map, checkLastPacket_dos, rateKey, rateInterval,
      rateTimeout, rateMessage, lastPacket]

theorem routeRequest_unlimited (env : Env) (srv : XRouterServer) (cfg : XRouterSettings)
    (node : CNode) (packet : XRouterPacket) (time : Int) (uuid currency : String) (offset : Nat)
    (h : ¬ limiterRuns env cfg packet.command currency) :
    (routeRequest env srv cfg node packet time uuid currency offset).server.lastPacketsReceived
        = srv.lastPacketsReceived ∧
      (routeRequest env srv cfg node packet time uuid currency offset).dos = [] := by
  have hc : packet.command = .xrCustomCall := by
    by_contra hc
    exact h (Or.inl hc)
  have ht : ¬ 0 ≤ get_double env (getPluginSettings cfg currency).1 "timeout" (-1) := by
    intro ht
    exact h (Or.inr (by simpa [rateTimeout, hc] using ht))
  simp [routeRequest, hc, ht]

theorem getPluginSettings_entry (cfg : XRouterSettings) (name : String) :
    (getPluginSettings cfg name).2.plugins name = some (getPluginSettings cfg name).1 := by
  unfold getPluginSettings
  cases h : cfg.plugins name <;> simp [h]

theorem getPluginSettings_again (cfg : XRouterSettings) (name : String) :
    getPluginSettings (getPluginSettings cfg name).2 name =
      ((getPluginSettings cfg name).1, (getPluginSettings cfg name).2) := by
  have h := getPluginSettings_entry cfg name
  generalize (getPluginSettings cfg name).2 = cfg1 at h ⊢
  generalize (getPluginSettings cfg name).1 = s at h ⊢
  simp [getPluginSettings, h]

theorem processCustomCall_settings (env : Env) (cfg : XRouterSettings) (name : String)
    (params : List String) :
    (processCustomCall env cfg name params).2 = cfg ∨
      (processCustomCall env cfg name params).2 = (getPluginSettings cfg name).2 := by
  unfold processCustomCall
  by_cases hp : env.hasPlugin cfg name = false
  · simp [hp]
  · right
    rw [if_neg hp]
    dsimp only
    split_ifs
    · split <;> rfl
    · split <;> rfl
    · rfl

theorem customCall_settings (env : Env) (cfg : XRouterSettings) (packet : XRouterPacket)
    (offset : Nat) (psettings : XRouterPluginSettings) (currency : String) :
    (customCall env cfg packet offset psettings currency).2 = cfg ∨
      (customCall env cfg packet offset psettings currency).2
        = (getPluginSettings cfg currency).2 := by
  unfold customCall
  split
  · exact Or.inl rfl
  · split
    · exact Or.inl rfl
    · exact processCustomCall_settings env cfg currency _

theorem routeRequest_settings (env : Env) (srv : XRouterServer) (cfg : XRouterSettings)
    (node : CNode) (packet : XRouterPacket) (time : Int) (uuid currency : String)
    (offset : Nat) :
    (routeRequest env srv cfg node packet time uuid currency offset).settings =
      if packet.command = .xrCustomCall then (getPluginSettings cfg currency).2 else cfg := by
  by_cases hc : packet.command = .xrCustomCall
  · simp only [routeRequest, hc, if_true, sendReply_settings]
    rcases customCall_settings env (getPluginSettings cfg currency).2 packet offset
      (getPluginSettings cfg currency).1 currency with h | h
    · exact h
    · rw [h, getPluginSettings_again]
  · simp [routeRequest, hc]

theorem rateTimeout_after (env : Env) (cfg : XRouterSettings) (command : XRouterCommand)
    (currency : String) :
    rateTimeout env (if command = .xrCustomCall then (getPluginSettings cfg currency).2 else cfg)
      command currency = rateTimeout env cfg command currency := by
  by_cases hc : command = .xrCustomCall
  · simp [rateTimeout, hc, getPluginSettings_again]
  · simp [rateTimeout, hc]

theorem duration_cast_ms_lt_iff (d T : Int) (hd : 0 ≤ d) :
    duration_cast_ms d < T ↔ d < T * ticksPerMillisecond := by
  unfold duration_cast_ms ticksPerMillisecond
  rw [Int.tdiv_eq_ediv hd (by norm_num)]
  omega

theorem toSignificand_nonneg (fuel : Nat) :
    ∀ (x : ℚ) (e : Int), 0 ≤ x → 0 ≤ (toSignificand fuel x e).1 := by
  induction fuel with
  | zero => intro x e hx; exact hx
  | succ fuel ih =>
    intro x e hx
    simp only [toSignificand]
    split_ifs
    · exact ih _ _ (by linarith)
    · exact ih _ _ (by linarith)
    · exact hx

theorem roundHalfEven_nonneg (x : ℚ) (hx : 0 ≤ x) : 0 ≤ roundHalfEven x := by
  have hf : (0 : Int) ≤ x.floor := Int.floor_nonneg.mpr hx
  unfold roundHalfEven
  split_ifs <;> omega

theorem pow2_pos (k : Int) : 0 < pow2 k := by
  unfold pow2
  split_ifs <;> positivity

theorem roundPositive_nonneg (x : ℚ) (hx : 0 ≤ x) : 0 ≤ roundPositive x := by
  unfold roundPositive
  have h1 := roundHalfEven_nonneg _ (toSignificand_nonneg 2200 x 0 hx)
  have h2 := pow2_pos (toSignificand 2200 x 0).2
  have h3 : (0 : ℚ) ≤ (roundHalfEven (toSignificand 2200 x 0).1 : ℚ) := by exact_mod_cast h1
  positivity

theorem roundToDouble_nonpos (x : ℚ) (hx : x < 0) : roundToDouble x ≤ 0 := by
  unfold roundToDouble
  rw [if_neg (ne_of_lt hx), if_pos hx]
  have := roundPositive_nonneg (-x) (by linarith)
  linarith

theorem roundToDouble_nonneg (x : ℚ) (hx : 0 ≤ x) : 0 ≤ roundToDouble x := by
  unfold roundToDouble
  split_ifs with h0 hneg
  · exact le_refl _
  · exact absurd hneg (not_lt.mpr hx)
  · exact roundPositive_nonneg x hx

/-- Inside the range of `int`, the cast of a non-negative `double` is its integer part. -/
theorem castInt_trunc (x : ℚ) (hx : 0 ≤ x) (hlt : x < 2147483648) :
    (castInt x : ℚ) ≤ x ∧ x < castInt x + 1 := by
  have hfl : Int.tdiv x.num x.den = ⌊x⌋ := by
    rw [Int.tdiv_eq_ediv (Rat.num_nonneg.mpr hx) (by positivity), Rat.floor_def]
  have h0 : (0 : Int) ≤ ⌊x⌋ := Int.floor_nonneg.mpr hx
  have h1 : ⌊x⌋ < 2147483648 := by
    have : ((⌊x⌋ : Int) : ℚ) < ((2147483648 : Int) : ℚ) :=
      lt_of_le_of_lt (Int.floor_le x) (by exact_mod_cast hlt)
    exact_mod_cast this
  have hc : castInt x = ⌊x⌋ := by
    unfold castInt
    rw [hfl, if_neg (by omega)]
  rw [hc]
  exact ⟨Int.floor_le x, Int.lt_floor_add_one x⟩

theorem castInt_nonpos (x : ℚ) (hx : x < 0) : castInt (doubleMul x 1000) ≤ 0 := by
  have hr : doubleMul x 1000 ≤ 0 := roundToDouble_nonpos _ (by linarith)
  have hnum : (doubleMul x 1000).num ≤ 0 := Rat.num_nonpos.mpr hr
  have h := Int.tdiv_nonneg (a := -(doubleMul x 1000).num)
    (b := ((doubleMul x 1000).den : Int)) (by omega) (by positivity)
  rw [Int.neg_tdiv] at h
  unfold castInt
  split_ifs <;> omega

theorem limiterRuns_after (env : Env) (cfg : XRouterSettings) (command : XRouterCommand)
    (currency : String) :
    limiterRuns env (if command = .xrCustomCall then (getPluginSettings cfg currency).2 else cfg)
      command currency ↔ limiterRuns env cfg command currency := by
  unfold limiterRuns
  rw [rateTimeout_after]

theorem rateInterval_after (env : Env) (cfg : XRouterSettings) (command : XRouterCommand)
    (currency : String) :
    rateInterval env (if command = .xrCustomCall then (getPluginSettings cfg currency).2 else cfg)
      command currency = rateInterval env cfg command currency := by
  unfold rateInterval
  rw [rateTimeout_after]

theorem lastPacket_setLastPacket (srv : XRouterServer) (m : CNode → Option (String → Option Int))
    (node : CNode) (keystr : String) (time : Int)
    (h : srv.lastPacketsReceived = setLastPacket m node keystr time) :
    lastPacket srv node keystr = some time := by
  unfold lastPacket
  rw [h]
  exact setLastPacket_same m node keystr time

/-- The effect of an admitted request on the settings, the rate-limiter map and the reported
penalties. -/
theorem onMessageReceived_limiter (env : Env) (srv : XRouterServer) (cfg : XRouterSettings)
    (node : CNode) (packet : XRouterPacket) (time : Int) (uuid currency : String)
    (h : Admitted env cfg packet uuid currency) :
    (onMessageReceived env srv cfg node packet time).settings =
        (if packet.command = .xrCustomCall then (getPluginSettings cfg currency).2 else cfg) ∧
      (limiterRuns env cfg packet.command currency →
        (onMessageReceived env srv cfg node packet time).server.lastPacketsReceived
          = setLastPacket srv.lastPacketsReceived node (rateKey env packet.command currency) time
        ∧ (onMessageReceived env srv cfg node packet time).dos =
          if throttled (lastPacket srv node (rateKey env packet.command currency)) time
              (rateInterval env cfg packet.command currency) = true
          then [⟨100, rateMessage env packet.command currency⟩] else []) ∧
      (¬ limiterRuns env cfg packet.command currency →
        (onMessageReceived env srv cfg node packet time).server.lastPacketsReceived
          = srv.lastPacketsReceived
        ∧ (onMessageReceived env srv cfg node packet time).dos = []) := by
  rw [onMessageReceived_of_admitted env srv cfg node packet time uuid currency h]
  exact ⟨routeRequest_settings .., fun hr => routeRequest_limited _ _ _ _ _ _ _ _ _ hr,
    fun hr => routeRequest_unlimited _ _ _ _ _ _ _ _ _ hr⟩

theorem rateInterval_nonpos (env : Env) (cfg : XRouterSettings) (command : XRouterCommand)
    (currency : String) (h : ¬ limiterRuns env cfg command currency) :
    rateInterval env cfg command currency ≤ 0 := by
  unfold limiterRuns at h
  push_neg at h
  exact castInt_nonpos _ h.2

/-! ## Rate limiter -/

/-- C1, at a failing input. Peer 7 asked for the block count of `BTC` at time 0 and asks again
1000 ticks later, with a timeout of 2 seconds: the rate limiter throttles the second request
and reports the penalty 100, and the request is dispatched to the connector all the same and
answered with its block count. -/
theorem throttled_request_is_answered :
    Admitted demoEnv demoSettings (demoPacket .xrGetBlockCount ["u2", "BTC"]) "u2" "BTC" ∧
      throttled (lastPacket demoServerSeen 7 "BTC::xrGetBlockCount") 1000
        (rateInterval demoEnv demoSettings .xrGetBlockCount "BTC") = true ∧
      (onMessageReceived demoEnv demoServerSeen demoSettings 7
        (demoPacket .xrGetBlockCount ["u2", "BTC"]) 1000).dos
        = [⟨100, "XRouter: too many requests of type BTC::xrGetBlockCount"⟩] ∧
      (onMessageReceived demoEnv demoServerSeen demoSettings 7
        (demoPacket .xrGetBlockCount ["u2", "BTC"]) 1000).sent
        = [(7, ⟨.xrReply, ["u2", "result=12345"]⟩)] := by
  decide!

/-- Values of `(int)(timeout * 1000)`: 2000 for 2 seconds; 570 for the `double` nearest to
0.57, whose exact product with 1000 is below 570; 1000 for the `double` nearest to 1.001;
1 for the `double` nearest to 0.0015; the least `int` for 3000000 seconds. -/
theorem interval_examples :
    castInt (doubleMul 2 1000) = 2000 ∧
      castInt (doubleMul (roundToDouble (57 / 100)) 1000) = 570 ∧
      castInt (doubleMul (roundToDouble (1001 / 1000)) 1000) = 1000 ∧
      castInt (doubleMul (roundToDouble (3 / 2000)) 1000) = 1 ∧
      castInt (doubleMul 3000000 1000) = -2147483648 := by
  decide!

/-- With the `double` nearest to 0.57 seconds as timeout the interval is 570 milliseconds: a
second block-count request 569500000 ticks after the first is reported with the penalty 100,
and one 570000000 ticks after it is not. -/
theorem rounded_timeout_example :
    rateInterval roundedEnv demoSettings .xrGetBlockCount "FOO" = 570 ∧
      (onMessageReceived roundedEnv
        (onMessageReceived roundedEnv demoServer demoSettings 7
          (demoPacket .xrGetBlockCount ["u1", "FOO"]) 0).server demoSettings 7
        (demoPacket .xrGetBlockCount ["u2", "FOO"]) 569500000).dos
        = [⟨100, "XRouter: too many requests of type FOO::xrGetBlockCount"⟩] ∧
      (onMessageReceived roundedEnv
        (onMessageReceived roundedEnv demoServer demoSettings 7
          (demoPacket .xrGetBlockCount ["u1", "FOO"]) 0).server demoSettings 7
        (demoPacket .xrGetBlockCount ["u2", "FOO"]) 570000000).dos = [] := by
  decide!

/-- C2, counterexample. The timeout is the `double` nearest to 0.0015 seconds, and peer 7
sends two admitted block-count requests for `FOO` at the times 0 and 1200000 ticks, that is
1.2 milliseconds apart and less than the timeout apart. The second request is judged against
the first and no penalty is reported for it: the interval that counts is one millisecond. -/
theorem fractional_timeout_counterexample :
    Admitted fractionalEnv demoSettings (demoPacket .xrGetBlockCount ["u2", "FOO"]) "u2" "FOO" ∧
      lastPacket (onMessageReceived fractionalEnv demoServer demoSettings 7
        (demoPacket .xrGetBlockCount ["u1", "FOO"]) 0).server 7 "FOO::xrGetBlockCount"
        = some 0 ∧
      (1200000 : ℚ) < rateTimeout fractionalEnv demoSettings .xrGetBlockCount "FOO" * 1000000000 ∧
      rateInterval fractionalEnv demoSettings .xrGetBlockCount "FOO" = 1 ∧
      (onMessageReceived fractionalEnv
        (onMessageReceived fractionalEnv demoServer demoSettings 7
          (demoPacket .xrGetBlockCount ["u1", "FOO"]) 0).server
        (onMessageReceived fractionalEnv demoServer demoSettings 7
          (demoPacket .xrGetBlockCount ["u1", "FOO"]) 0).settings 7
        (demoPacket .xrGetBlockCount ["u2", "FOO"]) 1200000).dos = [] := by
  decide!

/-- The penalties of two consecutive admitted requests with the same command and currency,
the first without a stored entry. -/
theorem two_requests_penalties (env : Env) (srv : XRouterServer) (cfg : XRouterSettings)
    (node : CNode) (p1 p2 : XRouterPacket) (t1 t2 : Int) (u1 u2 currency : String)
    (h1 : Admitted env cfg p1 u1 currency)
    (h2 : Admitted env (onMessageReceived env srv cfg node p1 t1).settings p2 u2 currency)
    (hcmd : p2.command = p1.command)
    (hfresh : lastPacket srv node (rateKey env p1.command currency) = none)
    (ht : t1 ≤ t2) :
    (onMessageReceived env srv cfg node p1 t1).dos = [] ∧
      (t2 - t1 < rateInterval env cfg p1.command currency * ticksPerMillisecond →
        (onMessageReceived env (onMessageReceived env srv cfg node p1 t1).server
          (onMessageReceived env srv cfg node p1 t1).settings node p2 t2).dos
          = [⟨100, rateMessage env p1.command currency⟩]) ∧
      (rateInterval env cfg p1.command currency * ticksPerMillisecond ≤ t2 - t1 →
        (onMessageReceived env (onMessageReceived env srv cfg node p1 t1).server
          (onMessageReceived env srv cfg node p1 t1).settings node p2 t2).dos = []) := by
  obtain ⟨hs1, hrun1, hoff1⟩ := onMessageReceived_limiter env srv cfg node p1 t1 u1 currency h1
  obtain ⟨-, hrun2, hoff2⟩ := onMessageReceived_limiter env
    (onMessageReceived env srv cfg node p1 t1).server
    (onMessageReceived env srv cfg node p1 t1).settings node p2 t2 u2 currency h2
  rw [hcmd, hs1, limiterRuns_after, rateInterval_after] at hrun2
  rw [hcmd, hs1, limiterRuns_after] at hoff2
  have hd : (0 : Int) ≤ t2 - t1 := by omega
  by_cases hr : limiterRuns env cfg p1.command currency
  · obtain ⟨hm1, hd1⟩ := hrun1 hr
    obtain ⟨-, hd2⟩ := hrun2 hr
    rw [lastPacket_setLastPacket _ _ _ _ _ hm1] at hd2
    rw [hfresh] at hd1
    refine ⟨by simpa [throttled] using hd1, fun hlt => ?_, fun hge => ?_⟩
    · rw [hs1, hd2]
      simp [throttled, duration_cast_ms_lt_iff _ _ hd, hlt]
    · rw [hs1, hd2]
      simp [throttled, duration_cast_ms_lt_iff _ _ hd, hge]
  · have hT := rateInterval_nonpos env cfg p1.command currency hr
    have hpos : (0 : Int) < ticksPerMillisecond := by decide
    refine ⟨(hoff1 hr).2, fun hlt => ?_, fun _ => ?_⟩
    · have : rateInterval env cfg p1.command currency * ticksPerMillisecond ≤ 0 :=
        Int.mul_nonpos_of_nonpos_of_nonneg hT hpos.le
      omega
    · rw [hs1]
      exact (hoff2 hr).2

/-- C2, amended. Two consecutive admitted requests of one peer with the same command and
currency, at times `t1 ≤ t2` in clock ticks, the first without a stored entry; `T` is the
whole number of milliseconds `(int)(timeout * 1000)` that the code derives from the
configured timeout. The first request is never penalised; when less than `T` milliseconds
have passed the second one is reported with the penalty 100, and when at least `T`
milliseconds have passed no penalty is reported for the second one either. For a
non-negative timeout whose product is inside the range of `int`, `T` is the integer part of
the `double` product `timeout * 1000`. -/
theorem rate_limit_two_requests (env : Env) (srv : XRouterServer) (cfg : XRouterSettings)
    (node : CNode) (p1 p2 : XRouterPacket) (t1 t2 : Int) (u1 u2 currency : String)
    (h1 : Admitted env cfg p1 u1 currency)
    (h2 : Admitted env (onMessageReceived env srv cfg node p1 t1).settings p2 u2 currency)
    (hcmd : p2.command = p1.command)
    (hfresh : lastPacket srv node (rateKey env p1.command currency) = none)
    (ht : t1 ≤ t2) :
    (onMessageReceived env srv cfg node p1 t1).dos = [] ∧
      (t2 - t1 < rateInterval env cfg p1.command currency * ticksPerMillisecond →
        (onMessageReceived env (onMessageReceived env srv cfg node p1 t1).server
          (onMessageReceived env srv cfg node p1 t1).settings node p2 t2).dos
          = [⟨100, rateMessage env p1.command currency⟩]) ∧
      (rateInterval env cfg p1.command currency * ticksPerMillisecond ≤ t2 - t1 →
        (onMessageReceived env (onMessageReceived env srv cfg node p1 t1).server
          (onMessageReceived env srv cfg node p1 t1).settings node p2 t2).dos = []) ∧
      (0 ≤ rateTimeout env cfg p1.command currency →
        doubleMul (rateTimeout env cfg p1.command currency) 1000 < 2147483648 →
        (rateInterval env cfg p1.command currency : ℚ)
            ≤ doubleMul (rateTimeout env cfg p1.command currency) 1000 ∧
          doubleMul (rateTimeout env cfg p1.command currency) 1000
            < rateInterval env cfg p1.command currency + 1) := by
  obtain ⟨hfirst, hless, hmore⟩ := two_requests_penalties env srv cfg node p1 p2 t1 t2 u1 u2
    currency h1 h2 hcmd hfresh ht
  exact ⟨hfirst, hless, hmore, fun hpos hrange =>
    castInt_trunc _ (roundToDouble_nonneg _ (by positivity)) hrange⟩

/-- Witness of C2: a second block-count request for `FOO` by peer 7, 1000 ticks after the
first one, is reported with the penalty 100. -/
theorem rate_limit_two_requests_witness :
    Admitted demoEnv demoSettings (demoPacket .xrGetBlockCount ["u1", "FOO"]) "u1" "FOO" ∧
      (onMessageReceived demoEnv
        (onMessageReceived demoEnv demoServer demoSettings 7
          (demoPacket .xrGetBlockCount ["u1", "FOO"]) 0).server
        (onMessageReceived demoEnv demoServer demoSettings 7
          (demoPacket .xrGetBlockCount ["u1", "FOO"]) 0).settings 7
        (demoPacket .xrGetBlockCount ["u2", "FOO"]) 1000).dos
        = [⟨100, rateMessage demoEnv .xrGetBlockCount "FOO"⟩] :=
  ⟨by decide!,
    (rate_limit_two_requests demoEnv demoServer demoSettings 7
      (demoPacket .xrGetBlockCount ["u1", "FOO"]) (demoPacket .xrGetBlockCount ["u2", "FOO"])
      0 1000 "u1" "u2" "FOO" (by decide!) (by decide!) rfl (by decide!) (by decide)).2.1
      (by decide!)⟩

/-- C3. When the rate limiter runs for an admitted request of peer `node` at time `now` (a
built-in command, or a plugin call whose timeout is not negative), the stored time of the
peer under the key of the request is `now` afterwards, whatever was stored before and whether
or not the request was throttled; a following request with the same command and currency at
time `t3` is therefore throttled exactly when fewer whole milliseconds than the interval lie
between `now` and `t3`. -/
theorem rate_limit_records_now (env : Env) (srv : XRouterServer) (cfg : XRouterSettings)
    (node : CNode) (packet : XRouterPacket) (now : Int) (uuid currency : String)
    (h : Admitted env cfg packet uuid currency)
    (hr : limiterRuns env cfg packet.command currency) :
    lastPacket (onMessageReceived env srv cfg node packet now).server node
        (rateKey env packet.command currency) = some now ∧
      ∀ (p3 : XRouterPacket) (t3 : Int) (u3 : String),
        Admitted env (onMessageReceived env srv cfg node packet now).settings p3 u3 currency →
        p3.command = packet.command →
        (onMessageReceived env (onMessageReceived env srv cfg node packet now).server
          (onMessageReceived env srv cfg node packet now).settings node p3 t3).dos =
          if duration_cast_ms (t3 - now) < rateInterval env cfg packet.command currency
          then [⟨100, rateMessage env packet.command currency⟩] else [] := by
  obtain ⟨hs1, hrun1, -⟩ := onMessageReceived_limiter env srv cfg node packet now uuid currency h
  obtain ⟨hm1, -⟩ := hrun1 hr
  have hstored := lastPacket_setLastPacket _ _ _ _ _ hm1
  refine ⟨hstored, fun p3 t3 u3 h3 hcmd => ?_⟩
  obtain ⟨-, hrun3, -⟩ := onMessageReceived_limiter env
    (onMessageReceived env srv cfg node packet now).server
    (onMessageReceived env srv cfg node packet now).settings node p3 t3 u3 currency h3
  rw [hcmd, hs1, limiterRuns_after, rateInterval_after] at hrun3
  obtain ⟨-, hd3⟩ := hrun3 hr
  rw [hstored] at hd3
  rw [hs1, hd3]
  simp [throttled]

/-- Witness of C3: the throttled second request of peer 7 at time 1000 is the one stored. -/
theorem rate_limit_records_now_witness :
    throttled (lastPacket demoServerSeen 7 "BTC::xrGetBlockCount") 1000
        (rateInterval demoEnv demoSettings .xrGetBlockCount "BTC") = true ∧
      lastPacket (onMessageReceived demoEnv demoServerSeen demoSettings 7
        (demoPacket .xrGetBlockCount ["u2", "BTC"]) 1000).server 7
        (rateKey demoEnv .xrGetBlockCount "BTC") = some 1000 :=
  ⟨by decide!,
    (rate_limit_records_now demoEnv demoServerSeen demoSettings 7
      (demoPacket .xrGetBlockCount ["u2", "BTC"]) 1000 "u2" "BTC" (by decide!) (by decide!)).1⟩

/-! ## Admission -/

/-- C4. A packet whose signature does not verify is rejected at the first gate: the call
returns after the single report of penalty 10 for the signature error, nothing is sent, and
the server (the rate-limiter map included) and the settings are as before. The outcome does
not mention the ledger, the fields of the packet or a handler: none of them is reached. -/
theorem bad_signature_rejected (env : Env) (srv : XRouterServer) (cfg : XRouterSettings)
    (node : CNode) (packet : XRouterPacket) (time : Int) (h : env.verify packet = false) :
    onMessageReceived env srv cfg node packet time =
      ⟨srv, cfg, [⟨10, "XRouter: unsigned packet or signature error"⟩], [], .returned⟩ := by
  simp [onMessageReceived, h]

/-- Witness of C4: an otherwise valid block-count request with the signature `x`. -/
theorem bad_signature_rejected_witness :
    onMessageReceived demoEnv demoServerSeen demoSettings 7
        ⟨.xrGetBlockCount, ['k'], ['x'], demoData 'a' 0 ["u", "BTC"]⟩ 5 =
      ⟨demoServerSeen, demoSettings, [⟨10, "XRouter: unsigned packet or signature error"⟩], [],
        .returned⟩ :=
  bad_signature_rejected demoEnv demoServerSeen demoSettings 7
    ⟨.xrGetBlockCount, ['k'], ['x'], demoData 'a' 0 ["u", "BTC"]⟩ 5 (by decide)

theorem verifyBlockRequirement_of_output (env : Env) (packet : XRouterPacket) (txOut : CTxOut)
    (ho : referencedOutput env packet = .ok (some txOut))
    (hf : outputProvesStake env packet txOut = false) :
    verifyBlockRequirement env packet = .ok false := by
  unfold verifyBlockRequirement
  split
  · rfl
  · simp [ho, hf]

theorem onMessageReceived_no_stake (env : Env) (srv : XRouterServer) (cfg : XRouterSettings)
    (node : CNode) (packet : XRouterPacket) (time : Int) (hs : env.verify packet = true)
    (hb : verifyBlockRequirement env packet = .ok false) :
    onMessageReceived env srv cfg node packet time =
      ⟨srv, cfg, [⟨10, "XRouter: block requirement not satisfied"⟩], [], .returned⟩ := by
  simp [onMessageReceived, hs, hb]

/-- C5, counterexample. A request that references output 1 of the known transaction, of value
1 below the minimum 200, with an invalid signature: it is rejected for the signature error,
not for the block requirement. -/
theorem low_value_bad_signature_counterexample :
    referencedOutput demoEnv ⟨.xrGetBlockCount, ['k'], ['x'], demoData 'a' 1 ["u", "BTC"]⟩
        = .ok (some ⟨1, ['k']⟩) ∧
      (1 : Int) < demoEnv.MIN_BLOCK ∧
      (onMessageReceived demoEnv demoServer demoSettings 7
        ⟨.xrGetBlockCount, ['k'], ['x'], demoData 'a' 1 ["u", "BTC"]⟩ 0).dos
        = [⟨10, "XRouter: unsigned packet or signature error"⟩] ∧
      (onMessageReceived demoEnv demoServer demoSettings 7
        ⟨.xrGetBlockCount, ['k'], ['x'], demoData 'a' 1 ["u", "BTC"]⟩ 0).dos
        ≠ [⟨10, "XRouter: block requirement not satisfied"⟩] := by
  decide

/-- C5, amended. For a request whose referenced output has a value below `MIN_BLOCK`,
`verifyBlockRequirement` returns false whatever the signature; `onMessageReceived` rejects it
for the block requirement (penalty 10, no reply) when the signature is valid, and for the
signature error (penalty 10, no reply) when it is not, the signature being checked first. -/
theorem low_value_output_rejected (env : Env) (srv : XRouterServer) (cfg : XRouterSettings)
    (node : CNode) (packet : XRouterPacket) (time : Int) (txOut : CTxOut)
    (ho : referencedOutput env packet = .ok (some txOut))
    (hv : txOut.nValue < env.MIN_BLOCK) :
    verifyBlockRequirement env packet = .ok false ∧
      (env.verify packet = true →
        onMessageReceived env srv cfg node packet time =
          ⟨srv, cfg, [⟨10, "XRouter: block requirement not satisfied"⟩], [], .returned⟩) ∧
      (env.verify packet = false →
        onMessageReceived env srv cfg node packet time =
          ⟨srv, cfg, [⟨10, "XRouter: unsigned packet or signature error"⟩], [], .returned⟩) := by
  have hb : verifyBlockRequirement env packet = .ok false :=
    verifyBlockRequirement_of_output env packet txOut ho (by simp [outputProvesStake, hv])
  refine ⟨hb, fun hs => onMessageReceived_no_stake env srv cfg node packet time hs hb,
    fun hs => ?_⟩
  simp [onMessageReceived, hs]

/-- Witness of C5: the signed request that references the output of value 1. -/
theorem low_value_output_rejected_witness :
    referencedOutput demoEnv ⟨.xrGetBlockCount, ['k'], ['s'], demoData 'a' 1 ["u", "BTC"]⟩
        = .ok (some ⟨1, ['k']⟩) ∧
      verifyBlockRequirement demoEnv
        ⟨.xrGetBlockCount, ['k'], ['s'], demoData 'a' 1 ["u", "BTC"]⟩ = .ok false ∧
      (onMessageReceived demoEnv demoServer demoSettings 7
        ⟨.xrGetBlockCount, ['k'], ['s'], demoData 'a' 1 ["u", "BTC"]⟩ 0).dos
        = [⟨10, "XRouter: block requirement not satisfied"⟩] :=
  ⟨by decide,
    (low_value_output_rejected demoEnv demoServer demoSettings 7
      ⟨.xrGetBlockCount, ['k'], ['s'], demoData 'a' 1 ["u", "BTC"]⟩ 0 ⟨1, ['k']⟩
      (by decide) (by decide)).1,
    congrArg Outcome.dos
      ((low_value_output_rejected demoEnv demoServer demoSettings 7
        ⟨.xrGetBlockCount, ['k'], ['s'], demoData 'a' 1 ["u", "BTC"]⟩ 0 ⟨1, ['k']⟩
        (by decide) (by decide)).2.1 (by decide))⟩

/-- C6. A correctly signed request whose referenced output resolves and has at least the
minimum value, but whose script does not yield the single key id of the packet's public key
(no destination, a destination that is no key id, or another key id): `verifyBlockRequirement`
returns false, and `onMessageReceived` returns after the single report of penalty 10 for the
block requirement, with nothing sent and server and settings as before. -/
theorem wrong_destination_rejected (env : Env) (srv : XRouterServer) (cfg : XRouterSettings)
    (node : CNode) (packet : XRouterPacket) (time : Int) (txOut : CTxOut)
    (hs : env.verify packet = true)
    (ho : referencedOutput env packet = .ok (some txOut))
    (_hv : env.MIN_BLOCK ≤ txOut.nValue)
    (hd : env.ExtractDestination txOut.scriptPubKey
      ≠ some (.CKeyID (env.GetID packet.pubkey))) :
    verifyBlockRequirement env packet = .ok false ∧
      onMessageReceived env srv cfg node packet time =
        ⟨srv, cfg, [⟨10, "XRouter: block requirement not satisfied"⟩], [], .returned⟩ := by
  have hf : outputProvesStake env packet txOut = false := by
    unfold outputProvesStake
    split
    · rfl
    · split
      · rfl
      · next txKeyID hk =>
        have hne : env.GetID packet.pubkey ≠ txKeyID := by
          intro heq
          exact hd (by rw [hk, heq])
        simp [hne]
      · rfl
  have hb := verifyBlockRequirement_of_output env packet txOut ho hf
  exact ⟨hb, onMessageReceived_no_stake env srv cfg node packet time hs hb⟩

/-- Witness of C6: a request signed by key `z` that references the output paid to key `k`. -/
theorem wrong_destination_rejected_witness :
    (onMessageReceived demoEnv demoServer demoSettings 7
        ⟨.xrGetBlockCount, ['z'], ['s'], demoData 'a' 0 ["u", "BTC"]⟩ 0).dos
      = [⟨10, "XRouter: block requirement not satisfied"⟩] :=
  congrArg Outcome.dos
    (wrong_destination_rejected demoEnv demoServer demoSettings 7
      ⟨.xrGetBlockCount, ['z'], ['s'], demoData 'a' 0 ["u", "BTC"]⟩ 0 ⟨5000, ['k']⟩
      (by decide) (by decide) (by decide) (by decide)).2

/-! ## Replies -/

/-- C7. Every packet that `onMessageReceived` sends goes to the requesting peer, has the
command `xrReply`, and its body is the uuid of the request, the string that ends at the first
terminator from byte 36 of the packet, followed by one reply string. -/
theorem reply_carries_request_uuid (env : Env) (srv : XRouterServer) (cfg : XRouterSettings)
    (node : CNode) (packet : XRouterPacket) (time : Int) :
    ∀ m ∈ (onMessageReceived env srv cfg node packet time).sent,
      m.1 = node ∧ m.2.command = .xrReply ∧
        ∃ uuid reply, cstrAt packet.data 36 = .ok uuid ∧ m.2.body = [uuid, reply] := by
  intro m hm
  unfold onMessageReceived at hm
  split at hm
  · simp at hm
  · split at hm
    · simp at hm
    · simp at hm
    · split at hm
      · simp at hm
      · next uuid hu =>
        split at hm
        · simp at hm
        · next currency hc =>
          split at hm
          · simp at hm
          · unfold routeRequest at hm
            split at hm
            · obtain ⟨reply, -, rfl⟩ := sendReply_sent _ _ _ _ _ _ m hm
              exact ⟨rfl, rfl, uuid, reply, hu, rfl⟩
            · obtain ⟨reply, -, rfl⟩ := sendReply_sent _ _ _ _ _ _ m hm
              exact ⟨rfl, rfl, uuid, reply, hu, rfl⟩

/-- Witness of C7: the reply to the block-count request `u2` of peer 7. -/
theorem reply_carries_request_uuid_witness :
    ((7, ⟨.xrReply, ["u2", "result=12345"]⟩) : CNode × SentPacket) ∈
        (onMessageReceived demoEnv demoServerSeen demoSettings 7
          (demoPacket .xrGetBlockCount ["u2", "BTC"]) 1000).sent ∧
      ∃ uuid reply, cstrAt (demoPacket .xrGetBlockCount ["u2", "BTC"]).data 36 = .ok uuid ∧
        ["u2", "result=12345"] = [uuid, reply] :=
  ⟨by decide!,
    (reply_carries_request_uuid demoEnv demoServerSeen demoSettings 7
      (demoPacket .xrGetBlockCount ["u2", "BTC"]) 1000
      (7, ⟨.xrReply, ["u2", "result=12345"]⟩) (by decide!)).2.2⟩

/-! ## Built-in commands without a connector -/

/-- C8, at failing inputs. No connector is registered for `FOO`. The handlers of all-blocks,
all-transactions and the bloom-filter scan return the empty array, and those of balance and
balance-update return the empty string; none of these results mentions `FOO`. The reply to
the balance request carries the empty string. -/
theorem handlers_without_connector_are_silent :
    (connectorByCurrency demoServer "FOO").isNone = true ∧
      processGetAllBlocks demoEnv demoServer (demoPacket .xrGetAllBlocks ["u", "FOO", "0"])
        42 "FOO" = .ok "[]" ∧
      processGetAllTransactions demoEnv demoServer
        (demoPacket .xrGetAllTransactions ["u", "FOO", "addr", "10"]) 42 "FOO" = .ok "[]" ∧
      processGetBalance demoEnv demoServer (demoPacket .xrGetBalance ["u", "FOO", "addr"])
        42 "FOO" = .ok "" ∧
      processGetBalanceUpdate demoEnv demoServer
        (demoPacket .xrGetBalanceUpdate ["u", "FOO", "addr", "10"]) 42 "FOO" = .ok "" ∧
      processGetTransactionsBloomFilter demoEnv demoServer
        (demoPacket .xrGetTransactionsBloomFilter ["u", "FOO", "10"]) 42 "FOO" = .ok "[]" ∧
      (onMessageReceived demoEnv demoServer demoSettings 7
        (demoPacket .xrGetBalance ["u", "FOO", "addr"]) 0).sent
        = [(7, ⟨.xrReply, ["u", ""]⟩)] := by
  decide!

/-! ## Unknown commands -/

theorem switchCommand_not_builtin (env : Env) (srv : XRouterServer) (packet : XRouterPacket)
    (offset : Nat) (currency : String) (hb : isBuiltin packet.command = false) :
    switchCommand env srv packet offset currency = .ok none := by
  unfold switchCommand
  split <;> simp_all [isBuiltin]

/-- C9, counterexample. Peer 7 sends two signed and staked packets with the unknown command
99 for `BTC`, 1000 ticks apart: the second one is reported with the penalty 100. -/
theorem unknown_command_penalised_counterexample :
    demoEnv.verify (demoPacket (.other 99) ["u2", "BTC"]) = true ∧
      verifyBlockRequirement demoEnv (demoPacket (.other 99) ["u2", "BTC"]) = .ok true ∧
      isBuiltin (.other 99) = false ∧
      (onMessageReceived demoEnv
        (onMessageReceived demoEnv demoServer demoSettings 7
          (demoPacket (.other 99) ["u1", "BTC"]) 0).server demoSettings 7
        (demoPacket (.other 99) ["u2", "BTC"]) 1000).dos
        = [⟨100, "XRouter: too many requests of type BTC::unknown"⟩] := by
  decide!

/-- C9, amended. A packet that passes the signature and stake checks, whose uuid and currency
fields end inside the packet and whose command is neither the plugin call nor a built-in
command: `onMessageReceived` returns without sending anything. It reports no penalty, unless
the command is available for the currency and the rate limiter throttles the packet under the
key of currency and command; then it reports the penalty 100. -/
theorem unknown_command_outcome (env : Env) (srv : XRouterServer) (cfg : XRouterSettings)
    (node : CNode) (packet : XRouterPacket) (time : Int) (uuid currency : String)
    (hv : env.verify packet = true) (hs : verifyBlockRequirement env packet = .ok true)
    (hu : cstrAt packet.data 36 = .ok uuid)
    (hc : cstrAt packet.data (advance 36 uuid) = .ok currency)
    (hcmd : packet.command ≠ .xrCustomCall) (hb : isBuiltin packet.command = false) :
    (onMessageReceived env srv cfg node packet time).sent = [] ∧
      (onMessageReceived env srv cfg node packet time).completion = .returned ∧
      (onMessageReceived env srv cfg node packet time).dos =
        if env.isAvailableCommand cfg packet.command currency = true ∧
            throttled (lastPacket srv node (rateKey env packet.command currency)) time
              (rateInterval env cfg packet.command currency) = true
        then [⟨100, rateMessage env packet.command currency⟩] else [] := by
  by_cases ha : env.isAvailableCommand cfg packet.command currency = true
  · have hadm : Admitted env cfg packet uuid currency := ⟨hv, hs, hu, hc, ha⟩
    have hd := (routeRequest_limited env srv cfg node packet time uuid currency
      (advance (advance 36 uuid) currency) (Or.inl hcmd)).2
    rw [onMessageReceived_of_admitted env srv cfg node packet time uuid currency hadm]
    refine ⟨?_, ?_, ?_⟩
    · simp [routeRequest, hcmd, switchCommand_not_builtin _ _ _ _ _ hb, sendReply]
    · simp [routeRequest, hcmd, switchCommand_not_builtin _ _ _ _ _ hb, sendReply]
    · rw [hd]
      simp [ha]
  · simp [onMessageReceived, hv, hs, hu, hc, ha]

/-- Witness of C9: a first packet with the unknown command 99 is dropped without penalty. -/
theorem unknown_command_outcome_witness :
    (onMessageReceived demoEnv demoServer demoSettings 7
        (demoPacket (.other 99) ["u1", "BTC"]) 0).sent = [] ∧
      (onMessageReceived demoEnv demoServer demoSettings 7
        (demoPacket (.other 99) ["u1", "BTC"]) 0).completion = .returned :=
  ⟨(unknown_command_outcome demoEnv demoServer demoSettings 7
      (demoPacket (.other 99) ["u1", "BTC"]) 0 "u1" "BTC" (by decide) (by decide) (by decide)
      (by decide) (by decide) (by decide)).1,
    (unknown_command_outcome demoEnv demoServer demoSettings 7
      (demoPacket (.other 99) ["u1", "BTC"]) 0 "u1" "BTC" (by decide) (by decide) (by decide)
      (by decide) (by decide) (by decide)).2.1⟩

/-! ## Coercion of plugin parameters -/

/-- The loop over `a + b` positions is the loop over the first `a` followed, unless it
returned or failed, by the loop over the next `b`. -/
theorem rpcParams_add (paramtypes params : List String) (a b : Nat) :
    ∀ (i : Nat) (acc : Array),
      rpcParams paramtypes params (a + b) i acc =
        match rpcParams paramtypes params a i acc with
        | .ok (.inr acc1) => rpcParams paramtypes params b (i + a) acc1
        | r => r := by
  induction a with
  | zero => intro i acc; simp [rpcParams]
  | succ a ih =>
    intro i acc
    have e1 : a + 1 + b = (a + b) + 1 := by omega
    have e2 : ∀ j : Nat, j + (a + 1) = j + 1 + a := by intro j; omega
    rw [e1, e2]
    simp only [rpcParams]
    rcases h : rpcParam paramtypes params i acc with f | msg | next
    · rfl
    · rfl
    · exact ih _ _

/-- The argument list only grows in an iteration. -/
theorem rpcParam_grows (paramtypes params : List String) (i : Nat) (acc r : Array)
    (h : rpcParam paramtypes params i acc = .ok (.inr r)) : acc <+: r := by
  unfold rpcParam at h
  split at h
  · simp at h
  · split at h
    · simp only [Except.ok.injEq, Sum.inr.injEq] at h
      exact h ▸ List.prefix_refl _
    · split at h
      · simp at h
      · split at h
        · simp only [Except.ok.injEq, Sum.inr.injEq] at h
          exact h ▸ List.prefix_append _ _
        · split at h
          · split at h
            · simp only [Except.ok.injEq, Sum.inr.injEq] at h
              exact h ▸ List.prefix_append _ _
            · simp at h
          · split at h
            · split at h
              · simp only [Except.ok.injEq, Sum.inr.injEq] at h
                exact h ▸ List.prefix_append _ _
              · split at h
                · simp only [Except.ok.injEq, Sum.inr.injEq] at h
                  exact h ▸ List.prefix_append _ _
                · simp at h
            · simp only [Except.ok.injEq, Sum.inr.injEq] at h
              exact h ▸ List.prefix_refl _

/-- The argument list only grows during the loop. -/
theorem rpcParams_grows (paramtypes params : List String) (n : Nat) :
    ∀ (i : Nat) (acc r : Array),
      rpcParams paramtypes params n i acc = .ok (.inr r) → acc <+: r := by
  induction n with
  | zero =>
    intro i acc r h
    simp only [rpcParams, Except.ok.injEq, Sum.inr.injEq] at h
    exact h ▸ List.prefix_refl _
  | succ n ih =>
    intro i acc r h
    simp only [rpcParams] at h
    rcases hstep : rpcParam paramtypes params i acc with f | msg | next
    · simp [hstep] at h
    · simp [hstep] at h
    · rw [hstep] at h
      exact (rpcParam_grows _ _ _ _ _ hstep).trans (ih _ _ _ h)

theorem rpcParam_int (paramtypes params : List String) (i : Nat) (acc : Array) (p : String)
    (hp : params[i]? = some p) (hne : p ≠ "") (hint : paramtypes[i]? = some "int") :
    rpcParam paramtypes params i acc =
      match stoi p with
      | .ok v => .ok (.inr (acc ++ [.int v]))
      | .error _ =>
        .ok (.inl ("Parameter #" ++ toString (i + 1) ++ " can not be converted to integer")) := by
  unfold rpcParam
  simp only [hp, hint, if_neg hne]
  rw [if_neg (by decide)]
  simp

/-- The loop up to and including an `int` position `i` that is reached with arguments `args`. -/
theorem rpcParams_through_int (paramtypes params : List String) (i : Nat) (args : Array)
    (p : String) (hp : params[i]? = some p) (hne : p ≠ "")
    (hint : paramtypes[i]? = some "int")
    (hbefore : rpcParams paramtypes params i 0 [] = .ok (.inr args)) :
    rpcParams paramtypes params (i + 1) 0 [] =
      match stoi p with
      | .ok v => .ok (.inr (args ++ [.int v]))
      | .error _ =>
        .ok (.inl ("Parameter #" ++ toString (i + 1) ++ " can not be converted to integer")) := by
  rw [rpcParams_add, hbefore]
  simp only [rpcParams, Nat.zero_add, rpcParam_int paramtypes params i args p hp hne hint]
  cases stoi p <;> rfl

/-- C10, counterexample. The value `12abc` is no integer, and at the `int` position of the
plugin `plug` it is not refused: the RPC collaborator is called with the integer 12. -/
theorem int_parameter_prefix_counterexample :
    demoEnv.hasPlugin demoPluginSettings "plug" = true ∧
      demoEnv.getParam (getPluginSettings demoPluginSettings "plug").1 "paramsType" "" = "int" ∧
      "12abc".toInt? = none ∧
      (processCustomCall demoEnv demoPluginSettings "plug" ["12abc"]).1 = .ok "result=[12]" ∧
      (processCustomCall demoEnv demoPluginSettings "plug" ["12abc"]).1
        ≠ .ok "Parameter #1 can not be converted to integer" := by
  decide!

/-- C10, amended. In the rpc path of `processCustomCall`, let `i` be a position below the
parameter count with declared type `int` and a non-empty value `p`, reached with the
arguments `args` of the positions before it. If `std::stoi` throws on `p` (no digits after
optional white space and sign, as for `abc`, or a number outside `int`), the call returns
exactly `Parameter #<i+1> can not be converted to integer`, and no result of the RPC
collaborator enters it. Otherwise the integer that `std::stoi` reads at the start of `p` (123
for `123`, and 12 for `12abc`) is appended to the arguments, and it is part of the argument
list that the RPC collaborator receives when the loop completes. -/
theorem int_parameter_coercion (env : Env) (cfg : XRouterSettings) (name : String)
    (params : List String) (i : Nat) (p : String) (args : Array)
    (hplug : env.hasPlugin cfg name = true)
    (htype : env.getParam (getPluginSettings cfg name).1 "type" "" = "rpc")
    (hi : (i : Int) < env.getMaxParamCount (getPluginSettings cfg name).1)
    (hp : params[i]? = some p) (hne : p ≠ "")
    (hint : (splitComma (env.getParam (getPluginSettings cfg name).1 "paramsType" ""))[i]?
      = some "int")
    (hbefore : rpcParams (splitComma (env.getParam (getPluginSettings cfg name).1 "paramsType" ""))
      params i 0 [] = .ok (.inr args)) :
    (∀ f, stoi p = .error f →
        (processCustomCall env cfg name params).1 =
          .ok ("Parameter #" ++ toString (i + 1) ++ " can not be converted to integer")) ∧
      (∀ v, stoi p = .ok v →
        rpcParams (splitComma (env.getParam (getPluginSettings cfg name).1 "paramsType" ""))
            params (i + 1) 0 [] = .ok (.inr (args ++ [.int v])) ∧
          ∀ jsonparams,
            rpcParams (splitComma (env.getParam (getPluginSettings cfg name).1 "paramsType" ""))
              params (env.getMaxParamCount (getPluginSettings cfg name).1).toNat 0 []
              = .ok (.inr jsonparams) →
            args ++ [.int v] <+: jsonparams ∧
              (processCustomCall env cfg name params).1 =
                .ok (env.write_string (.obj (env.CallRPC
                  (env.getParam (getPluginSettings cfg name).1 "rpcUser" "")
                  (env.getParam (getPluginSettings cfg name).1 "rpcPassword" "")
                  (env.getParam (getPluginSettings cfg name).1 "rpcIp" "127.0.0.1")
                  (env.getParam (getPluginSettings cfg name).1 "rpcPort" "")
                  (env.getParam (getPluginSettings cfg name).1 "rpcCommand" "")
                  jsonparams)))) ∧
      stoi "abc" = .error .invalid_argument ∧ stoi "123" = .ok 123 ∧ stoi "12abc" = .ok 12 := by
  have hthrough := rpcParams_through_int _ params i args p hp hne hint hbefore
  have hcount : (env.getMaxParamCount (getPluginSettings cfg name).1).toNat
      = (i + 1) + ((env.getMaxParamCount (getPluginSettings cfg name).1).toNat - (i + 1)) := by
    omega
  have hloop := rpcParams_add
    (splitComma (env.getParam (getPluginSettings cfg name).1 "paramsType" "")) params (i + 1)
    ((env.getMaxParamCount (getPluginSettings cfg name).1).toNat - (i + 1)) 0 []
  rw [← hcount, hthrough] at hloop
  refine ⟨fun f hf => ?_, fun v hv => ⟨?_, fun jsonparams hj => ⟨?_, ?_⟩⟩, by decide, by decide,
    by decide⟩
  · rw [hf] at hloop
    simp [processCustomCall, hplug, htype, hloop]
  · rw [hthrough, hv]
  · rw [hv] at hloop
    rw [hloop] at hj
    exact rpcParams_grows _ _ _ _ _ _ hj
  · simp [processCustomCall, hplug, htype, hj]

/-- Witness of C10: the value `abc` at the `int` position of the plugin `plug`. -/
theorem int_parameter_coercion_witness :
    stoi "abc" = .error .invalid_argument ∧
      (processCustomCall demoEnv demoPluginSettings "plug" ["abc"]).1 =
        .ok ("Parameter #" ++ toString (0 + 1) ++ " can not be converted to integer") :=
  ⟨by decide,
    (int_parameter_coercion demoEnv demoPluginSettings "plug" ["abc"] 0 "abc" []
      (by decide) (by decide) (by decide) (by decide) (by decide) (by decide) rfl).1
      .invalid_argument (by decide)⟩

theorem rpcParam_bool (paramtypes params : List String) (i : Nat) (acc : Array) (p : String)
    (hp : params[i]? = some p) (hne : p ≠ "") (hbool : paramtypes[i]? = some "bool") :
    rpcParam paramtypes params i acc =
      if p = "true" ∨ p = "false" then .ok (.inr (acc ++ [.bool true]))
      else .ok (.inl ("Parameter #" ++ toString (i + 1) ++ " can not be converted to bool")) := by
  unfold rpcParam
  simp only [hp, hbool, if_neg hne]
  rw [if_neg (by decide), if_neg (by decide), if_pos trivial]
  by_cases h1 : p = "true"
  · simp [h1]
  · by_cases h2 : p = "false"
    · simp [h2]
    · simp [h1, h2]

/-- The loop up to and including position `i` is the iteration at `i` on the arguments of the
positions before it. -/
theorem rpcParams_through (paramtypes params : List String) (i : Nat) (args : Array)
    (hbefore : rpcParams paramtypes params i 0 [] = .ok (.inr args)) :
    rpcParams paramtypes params (i + 1) 0 [] = rpcParam paramtypes params i args := by
  rw [rpcParams_add, hbefore]
  simp only [rpcParams, Nat.zero_add]
  rcases rpcParam paramtypes params i args with f | msg | next <;> rfl

/-- The whole loop, seen from a position `i` below the count that is reached with `args`. -/
theorem rpcParams_from (paramtypes params : List String) (count i : Nat) (args : Array)
    (hi : i < count) (hbefore : rpcParams paramtypes params i 0 [] = .ok (.inr args)) :
    rpcParams paramtypes params count 0 [] =
      match rpcParam paramtypes params i args with
      | .ok (.inr next) => rpcParams paramtypes params (count - (i + 1)) (i + 1) next
      | r => r := by
  have hcount : count = (i + 1) + (count - (i + 1)) := by omega
  have hloop := rpcParams_add paramtypes params (i + 1) (count - (i + 1)) 0 []
  rw [← hcount, rpcParams_through paramtypes params i args hbefore, Nat.zero_add] at hloop
  exact hloop

/-- The rpc path of `processCustomCall` in terms of the coercion loop. -/
theorem processCustomCall_rpc (env : Env) (cfg : XRouterSettings) (name : String)
    (params : List String) (hplug : env.hasPlugin cfg name = true)
    (htype : env.getParam (getPluginSettings cfg name).1 "type" "" = "rpc") :
    (processCustomCall env cfg name params).1 =
      match rpcParams (splitComma (env.getParam (getPluginSettings cfg name).1 "paramsType" ""))
        params (env.getMaxParamCount (getPluginSettings cfg name).1).toNat 0 [] with
      | .error f => .error f
      | .ok (.inl message) => .ok message
      | .ok (.inr jsonparams) =>
        .ok (env.write_string (.obj (env.CallRPC
          (env.getParam (getPluginSettings cfg name).1 "rpcUser" "")
          (env.getParam (getPluginSettings cfg name).1 "rpcPassword" "")
          (env.getParam (getPluginSettings cfg name).1 "rpcIp" "127.0.0.1")
          (env.getParam (getPluginSettings cfg name).1 "rpcPort" "")
          (env.getParam (getPluginSettings cfg name).1 "rpcCommand" "")
          jsonparams))) := by
  simp only [processCustomCall, hplug, htype]
  rcases rpcParams (splitComma (env.getParam (getPluginSettings cfg name).1 "paramsType" ""))
    params (env.getMaxParamCount (getPluginSettings cfg name).1).toNat 0 [] with f | msg | args
    <;> simp

/-- C11. In the rpc path of `processCustomCall`, let `i` be a position below the parameter
count with declared type `bool`, reached with the arguments `args` of the positions before
it. The values `true` and `false` both append the boolean true to the arguments, which is
then part of the argument list that the RPC collaborator receives when the loop completes.
Every other non-empty value makes the call return exactly
`Parameter #<i+1> can not be converted to bool`. -/
theorem bool_parameter_coercion (env : Env) (cfg : XRouterSettings) (name : String)
    (params : List String) (i : Nat) (p : String) (args : Array)
    (hplug : env.hasPlugin cfg name = true)
    (htype : env.getParam (getPluginSettings cfg name).1 "type" "" = "rpc")
    (hi : (i : Int) < env.getMaxParamCount (getPluginSettings cfg name).1)
    (hp : params[i]? = some p) (hne : p ≠ "")
    (hbool : (splitComma (env.getParam (getPluginSettings cfg name).1 "paramsType" ""))[i]?
      = some "bool")
    (hbefore : rpcParams (splitComma (env.getParam (getPluginSettings cfg name).1 "paramsType" ""))
      params i 0 [] = .ok (.inr args)) :
    (p = "true" ∨ p = "false" →
        rpcParams (splitComma (env.getParam (getPluginSettings cfg name).1 "paramsType" ""))
            params (i + 1) 0 [] = .ok (.inr (args ++ [.bool true])) ∧
          ∀ jsonparams,
            rpcParams (splitComma (env.getParam (getPluginSettings cfg name).1 "paramsType" ""))
              params (env.getMaxParamCount (getPluginSettings cfg name).1).toNat 0 []
              = .ok (.inr jsonparams) →
            args ++ [.bool true] <+: jsonparams ∧
              (processCustomCall env cfg name params).1 =
                .ok (env.write_string (.obj (env.CallRPC
                  (env.getParam (getPluginSettings cfg name).1 "rpcUser" "")
                  (env.getParam (getPluginSettings cfg name).1 "rpcPassword" "")
                  (env.getParam (getPluginSettings cfg name).1 "rpcIp" "127.0.0.1")
                  (env.getParam (getPluginSettings cfg name).1 "rpcPort" "")
                  (env.getParam (getPluginSettings cfg name).1 "rpcCommand" "")
                  jsonparams)))) ∧
      (p ≠ "true" → p ≠ "false" →
        (processCustomCall env cfg name params).1 =
          .ok ("Parameter #" ++ toString (i + 1) ++ " can not be converted to bool")) := by
  have hstep := rpcParam_bool _ params i args p hp hne hbool
  have hlt : i < (env.getMaxParamCount (getPluginSettings cfg name).1).toNat := by omega
  have hloop := rpcParams_from _ params _ i args hlt hbefore
  have hcall := processCustomCall_rpc env cfg name params hplug htype
  refine ⟨fun htf => ⟨?_, fun jsonparams hj => ⟨?_, ?_⟩⟩, fun h1 h2 => ?_⟩
  · rw [rpcParams_through _ params i args hbefore, hstep, if_pos htf]
  · rw [hstep, if_pos htf] at hloop
    rw [hloop] at hj
    exact rpcParams_grows _ _ _ _ _ _ hj
  · rw [hcall, hj]
  · rw [hstep, if_neg (by simp [h1, h2])] at hloop
    rw [hcall, hloop]

/-- Witness of C11: the value `false` at the `bool` position of the plugin `flag`. -/
theorem bool_parameter_coercion_witness :
    demoEnv.hasPlugin demoPlugins "flag" = true ∧
      rpcParams (splitComma (demoEnv.getParam (getPluginSettings demoPlugins "flag").1
        "paramsType" "")) ["false"] (0 + 1) 0 [] = .ok (.inr ([] ++ [.bool true])) :=
  ⟨by decide,
    ((bool_parameter_coercion demoEnv demoPlugins "flag" ["false"] 0 "false" []
      (by decide) (by decide) (by decide) (by decide) (by decide) (by decide) rfl).1
      (Or.inr rfl)).1⟩

/-! ## The account field -/

theorem hasColon_iff (account : String) : hasColon account = true ↔ ':' ∈ account.data := by
  simp [hasColon]

/-- A text with a colon is the text before its first colon, the colon and the text after it. -/
theorem colon_split (l : List Char) (h : ':' ∈ l) :
    l = l.takeWhile (fun c => c != ':') ++ ':' :: (l.dropWhile (fun c => c != ':')).drop 1 := by
  induction l with
  | nil => simp at h
  | cons c cs ih =>
    by_cases hc : c = ':'
    · subst hc
      simp
    · have hmem : ':' ∈ cs := by
        rcases List.mem_cons.mp h with h | h
        · exact absurd h.symm hc
        · exact h
      have hne : (c != ':') = true := by simpa using hc
      rw [List.takeWhile_cons, List.dropWhile_cons, if_pos hne, if_pos hne, List.cons_append,
        ← ih hmem]

theorem no_colon_before (l : List Char) : ':' ∉ l.takeWhile (fun c => c != ':') := by
  intro h
  have := List.mem_takeWhile_imp h
  simp at this

theorem splitAccount_colon (account : String) (h : ':' ∈ account.data) :
    splitAccount account =
      match stoi (afterColon account) with
      | .error f => .error f
      | .ok time => .ok (beforeColon account, time) := by
  unfold splitAccount
  rw [if_pos ((hasColon_iff account).mpr h)]

theorem splitAccount_plain (account : String) (h : ':' ∉ account.data) :
    splitAccount account = .ok (account, 0) := by
  unfold splitAccount
  rw [if_neg (by rw [hasColon_iff]; exact h)]

/-- The three handlers with an account field, given the result of `splitAccount`. -/
theorem account_handlers (env : Env) (srv : XRouterServer) (packet : XRouterPacket)
    (offset : Nat) (currency : String) (conn : WalletConnectorXRouter) (account acc : String)
    (time : Int) (hconn : connectorByCurrency srv currency = some conn)
    (hacc : cstrAt packet.data offset = .ok account)
    (hsplit : splitAccount account = .ok (acc, time)) :
    processGetBalance env srv packet offset currency = .ok (conn.getBalance acc time) ∧
      ∀ number_s number, cstrAt packet.data (advance offset account) = .ok number_s →
        stoi number_s = .ok number →
        processGetAllTransactions env srv packet offset currency =
            .ok (env.write_string (.array (conn.getAllTransactions acc number time))) ∧
          processGetBalanceUpdate env srv packet offset currency =
            .ok (conn.getBalanceUpdate acc number time) := by
  refine ⟨?_, fun number_s number hnum hn => ⟨?_, ?_⟩⟩
  · simp [processGetBalance, hacc, hsplit, hconn]
  · simp [processGetAllTransactions, hacc, hnum, hn, hsplit, hconn]
  · simp [processGetBalanceUpdate, hacc, hnum, hn, hsplit, hconn]

/-- C12. The handlers of all-transactions, balance and balance-update, for a currency with the
connector `conn` and the account field `account`. With a colon in the field, the field is the
text before its first colon, the colon and the text after it, and when `std::stoi` reads the
integer `time` from the text after it the connector is called with the text before it and
`time`. Without a colon the connector is called with the whole field and the time 0. The field
`addr1:1000` gives the account `addr1` and the time 1000. -/
theorem account_field_split (env : Env) (srv : XRouterServer) (packet : XRouterPacket)
    (offset : Nat) (currency : String) (conn : WalletConnectorXRouter) (account : String)
    (hconn : connectorByCurrency srv currency = some conn)
    (hacc : cstrAt packet.data offset = .ok account) :
    (':' ∈ account.data →
        account.data = (beforeColon account).data ++ ':' :: (afterColon account).data ∧
          ':' ∉ (beforeColon account).data ∧
          ∀ time, stoi (afterColon account) = .ok time →
            processGetBalance env srv packet offset currency
                = .ok (conn.getBalance (beforeColon account) time) ∧
              ∀ number_s number, cstrAt packet.data (advance offset account) = .ok number_s →
                stoi number_s = .ok number →
                processGetAllTransactions env srv packet offset currency =
                    .ok (env.write_string
                      (.array (conn.getAllTransactions (beforeColon account) number time))) ∧
                  processGetBalanceUpdate env srv packet offset currency =
                    .ok (conn.getBalanceUpdate (beforeColon account) number time)) ∧
      (':' ∉ account.data →
        processGetBalance env srv packet offset currency = .ok (conn.getBalance account 0) ∧
          ∀ number_s number, cstrAt packet.data (advance offset account) = .ok number_s →
            stoi number_s = .ok number →
            processGetAllTransactions env srv packet offset currency =
                .ok (env.write_string (.array (conn.getAllTransactions account number 0))) ∧
              processGetBalanceUpdate env srv packet offset currency =
                .ok (conn.getBalanceUpdate account number 0)) ∧
      splitAccount "addr1:1000" = .ok ("addr1", 1000) := by
  refine ⟨fun hcolon => ⟨colon_split account.data hcolon, no_colon_before account.data,
    fun time ht => ?_⟩, fun hplain => ?_, by decide⟩
  · have hsplit : splitAccount account = .ok (beforeColon account, time) := by
      rw [splitAccount_colon account hcolon, ht]
    exact account_handlers env srv packet offset currency conn account _ time hconn hacc hsplit
  · exact account_handlers env srv packet offset currency conn account _ 0 hconn hacc
      (splitAccount_plain account hplain)

/-- Witness of C12: a balance request for the account field `addr1:1000` of `BTC`. -/
theorem account_field_split_witness :
    cstrAt (demoPacket .xrGetBalance ["u", "BTC", "addr1:1000"]).data 42 = .ok "addr1:1000" ∧
      processGetBalance demoEnv (addConnector demoServer echoConnector)
        (demoPacket .xrGetBalance ["u", "BTC", "addr1:1000"]) 42 "BTC"
        = .ok (echoConnector.getBalance (beforeColon "addr1:1000") 1000) :=
  ⟨by decide,
    (((account_field_split demoEnv (addConnector demoServer echoConnector)
      (demoPacket .xrGetBalance ["u", "BTC", "addr1:1000"]) 42 "BTC" echoConnector "addr1:1000"
      (by simp [connectorByCurrency, addConnector, echoConnector]) (by decide)).1
      (by decide)).2.2 1000 (by decide)).1⟩

/-! ## Unknown plugins -/

theorem connectorByCurrency_eq (srv : XRouterServer) (currency : String) :
    connectorByCurrency srv currency = srv.m_connectorCurrencyMap currency := by
  unfold connectorByCurrency
  cases srv.m_connectorCurrencyMap currency <;> rfl

/-- The built-in branch of `routeRequest` sends what the `switch` returns. -/
theorem routeRequest_builtin_sent (env : Env) (srv : XRouterServer) (cfg : XRouterSettings)
    (node : CNode) (packet : XRouterPacket) (time : Int) (uuid currency : String)
    (offset : Nat) (hcmd : packet.command ≠ .xrCustomCall) :
    ∃ srv1 : XRouterServer, srv1.m_connectorCurrencyMap = srv.m_connectorCurrencyMap ∧
      routeRequest env srv cfg node packet time uuid currency offset =
        sendReply srv1 cfg
          (routeRequest env srv cfg node packet time uuid currency offset).dos node uuid
          (switchCommand env srv1 packet offset currency) := by
  refine ⟨{ srv with lastPacketsReceived := (checkLastPacket srv.lastPacketsReceived node
    (currency ++ "::" ++ env.XRouterCommand_ToString packet.command) time
    (env.getCommandTimeout cfg packet.command currency)
    "XRouter: too many requests of type ").1 }, rfl, ?_⟩
  simp [routeRequest, hcmd]

/-- C14. For a currency with a registered connector, `processGetBlockCount` returns the
serialisation of the object whose single member `result` is the block count of the connector,
and an admitted block-count packet is answered with the uuid and that serialisation; for the
count 12345 it is the serialisation of the object with `result` 12345. -/
theorem block_count_reply (env : Env) (srv : XRouterServer) (packet : XRouterPacket)
    (offset : Nat) (currency : String) (conn : WalletConnectorXRouter)
    (hconn : connectorByCurrency srv currency = some conn) :
    processGetBlockCount env srv packet offset currency
        = .ok (env.write_string (.obj [("result", .int conn.getBlockCount)])) ∧
      (∀ (cfg : XRouterSettings) (node : CNode) (time : Int) (uuid : String),
        Admitted env cfg packet uuid currency → packet.command = .xrGetBlockCount →
        (onMessageReceived env srv cfg node packet time).sent =
          [(node, ⟨.xrReply,
            [uuid, env.write_string (.obj [("result", .int conn.getBlockCount)])]⟩)]) ∧
      (conn.getBlockCount = 12345 →
        processGetBlockCount env srv packet offset currency
          = .ok (env.write_string (.obj [("result", .int 12345)]))) := by
  have hhandler : ∀ (srv1 : XRouterServer) (off : Nat),
      srv1.m_connectorCurrencyMap = srv.m_connectorCurrencyMap →
      processGetBlockCount env srv1 packet off currency
        = .ok (env.write_string (.obj [("result", .int conn.getBlockCount)])) := by
    intro srv1 off hmap
    have h1 : connectorByCurrency srv1 currency = some conn := by
      rw [connectorByCurrency_eq, hmap, ← connectorByCurrency_eq, hconn]
    simp [processGetBlockCount, h1]
  refine ⟨hhandler srv offset rfl, ?_, fun h => by rw [hhandler srv offset rfl, h]⟩
  intro cfg node time uuid hadm hcmd
  rw [onMessageReceived_of_admitted env srv cfg node packet time uuid currency hadm]
  obtain ⟨srv1, hmap, hroute⟩ := routeRequest_builtin_sent env srv cfg node packet time uuid
    currency (advance (advance 36 uuid) currency) (by rw [hcmd]; decide)
  rw [hroute]
  simp [switchCommand, hcmd, hhandler srv1 _ hmap, sendReply, Except.map]

/-- Witness of C14: the block-count request for `BTC` with the connector at height 12345. -/
theorem block_count_reply_witness :
    (onMessageReceived demoEnv (addConnector demoServer demoConnector) demoSettings 7
        (demoPacket .xrGetBlockCount ["u", "BTC"]) 0).sent =
      [(7, ⟨.xrReply,
        ["u", demoEnv.write_string (.obj [("result", .int demoConnector.getBlockCount)])]⟩)] :=
  (block_count_reply demoEnv (addConnector demoServer demoConnector)
    (demoPacket .xrGetBlockCount ["u", "BTC"]) 42 "BTC" demoConnector
    (by simp [connectorByCurrency, addConnector, demoConnector])).2.1 demoSettings 7 0 "u"
    (by decide) (by decide)

/-- C15. After `addConnector(c)` the look-up of the currency of `c` returns `c`, whatever was
registered before, and the look-up of every other currency returns what it returned before;
after any registrations on a fresh server the look-up of a currency that none of them has
returns the empty pointer. -/
theorem connector_registry (srv : XRouterServer) (c : WalletConnectorXRouter) :
    connectorByCurrency (addConnector srv c) c.currency = some c ∧
      (∀ other, other ≠ c.currency →
        connectorByCurrency (addConnector srv c) other = connectorByCurrency srv other) ∧
      (∀ (conns : List WalletConnectorXRouter) (currency : String),
        (∀ x ∈ conns, x.currency ≠ currency) →
        connectorByCurrency (registerAll conns) currency = none) := by
  refine ⟨by simp [connectorByCurrency_eq, addConnector], fun other hne => ?_, ?_⟩
  · simp [connectorByCurrency_eq, addConnector, Function.update_noteq hne]
  · intro conns currency hnone
    have hgen : ∀ (l : List WalletConnectorXRouter) (s : XRouterServer),
        (∀ x ∈ l, x.currency ≠ currency) → s.m_connectorCurrencyMap currency = none →
        (l.foldl addConnector s).m_connectorCurrencyMap currency = none := by
      intro l
      induction l with
      | nil => intro s _ hs; exact hs
      | cons x xs ih =>
        intro s hl hs
        refine ih (addConnector s x) (fun y hy => hl y (List.mem_cons_of_mem _ hy)) ?_
        have hx : currency ≠ x.currency := fun h => hl x (List.mem_cons_self _ _) h.symm
        simp [addConnector, Function.update_noteq hx, hs]
    rw [connectorByCurrency_eq]
    exact hgen conns freshServer hnone rfl

/-- Witness of C15: with the `BTC` connector registered twice, the look-up of `FOO` is the
one of before, and `FOO` is not found after the two registrations on a fresh server. -/
theorem connector_registry_witness :
    connectorByCurrency (addConnector (addConnector freshServer demoConnector) echoConnector)
        "FOO" = connectorByCurrency (addConnector freshServer demoConnector) "FOO" ∧
      connectorByCurrency (registerAll [demoConnector, echoConnector]) "FOO" = none :=
  ⟨(connector_registry (addConnector freshServer demoConnector) echoConnector).2.1 "FOO"
      (by decide),
    (connector_registry freshServer demoConnector).2.2 [demoConnector, echoConnector] "FOO"
      (by decide)⟩

/-! ## Bytes after the declared fields -/

theorem takeWhile_append_of_stop (p : Char → Bool) (a e : List Char)
    (h : ∃ x ∈ a, p x = false) : (a ++ e).takeWhile p = a.takeWhile p := by
  induction a with
  | nil => simp at h
  | cons c cs ih =>
    by_cases hc : p c = true
    · obtain ⟨x, hx, hpx⟩ := h
      have hrest : ∃ y ∈ cs, p y = false := by
        rcases List.mem_cons.mp hx with hxc | hxs
        · rw [hxc, hc] at hpx
          exact absurd hpx (by decide)
        · exact ⟨x, hxs, hpx⟩
      simp [List.takeWhile_cons, hc, ih hrest]
    · simp [List.takeWhile_cons, hc]

/-- A C string that ends inside the buffer is read the same with further bytes behind. -/
theorem cstrAt_append (d e : List Char) (offset : Nat) (s : String)
    (h : cstrAt d offset = .ok s) : cstrAt (d ++ e) offset = .ok s := by
  unfold cstrAt at h ⊢
  split at h
  · next hmem =>
    have hlen : offset ≤ d.length := by
      by_contra hgt
      rw [List.drop_eq_nil_of_le (by omega)] at hmem
      simp at hmem
    rw [List.drop_append_of_le_length hlen, if_pos (List.mem_append_left _ hmem),
      takeWhile_append_of_stop _ _ _ ⟨NUL, hmem, by simp⟩]
    exact h
  · simp at h

theorem readParams_append (d e : List Char) :
    ∀ (n offset : Nat) (params r : List String),
      readParams d n offset params = .ok r → readParams (d ++ e) n offset params = .ok r := by
  intro n
  induction n with
  | zero => intro offset params r h; exact h
  | succ n ih =>
    intro offset params r h
    simp only [readParams] at h ⊢
    cases h1 : cstrAt d offset with
    | error f => simp [h1] at h
    | ok p =>
      rw [h1] at h
      rw [cstrAt_append d e offset p h1]
      exact ih _ _ _ h

theorem verifyBlockRequirement_append (env : Env) (p q : XRouterPacket) (extra : List Char)
    (hk : q.pubkey = p.pubkey) (hd : q.data = p.data ++ extra)
    (h : verifyBlockRequirement env p = .ok true) : verifyBlockRequirement env q = .ok true := by
  have hlen : 36 ≤ p.data.length := by
    by_contra hlt
    simp [verifyBlockRequirement, show p.data.length < 36 by omega] at h
  have hvout : readVout q.data = readVout p.data := by
    unfold readVout
    rw [hd, List.getD_append _ _ _ 32 (by omega), List.getD_append _ _ _ 33 (by omega),
      List.getD_append _ _ _ 34 (by omega), List.getD_append _ _ _ 35 (by omega)]
  have href : referencedOutput env q = referencedOutput env p := by
    unfold referencedOutput
    rw [hvout, hd, List.take_append_of_le_length (by omega)]
  have hout : ∀ txOut, outputProvesStake env q txOut = outputProvesStake env p txOut := by
    intro txOut
    unfold outputProvesStake
    rw [hk]
  have hlen2 : ¬ q.data.length < 36 := by
    rw [hd, List.length_append]
    omega
  unfold verifyBlockRequirement at h ⊢
  rw [if_neg (by omega)] at h
  rw [if_neg hlen2, href]
  rcases hr : referencedOutput env p with f | _ | txOut
  · simp [hr] at h
  · simp [hr] at h
  · rw [hr] at h
    simp only [hout]
    exact h

theorem processGetBlockHash_append (env : Env) (srv : XRouterServer) (p q : XRouterPacket)
    (extra : List Char) (offset : Nat) (currency r : String) (hd : q.data = p.data ++ extra)
    (hr : processGetBlockHash env srv p offset currency = .ok r) :
    processGetBlockHash env srv q offset currency = .ok r := by
  unfold processGetBlockHash at hr ⊢
  rw [hd]
  cases h1 : cstrAt p.data offset with
  | error f => simp [h1] at hr
  | ok a => rw [cstrAt_append _ extra _ _ h1]; simpa [h1] using hr

theorem processGetBlock_append (env : Env) (srv : XRouterServer) (p q : XRouterPacket)
    (extra : List Char) (offset : Nat) (currency r : String) (hd : q.data = p.data ++ extra)
    (hr : processGetBlock env srv p offset currency = .ok r) :
    processGetBlock env srv q offset currency = .ok r := by
  unfold processGetBlock at hr ⊢
  rw [hd]
  cases h1 : cstrAt p.data offset with
  | error f => simp [h1] at hr
  | ok a => rw [cstrAt_append _ extra _ _ h1]; simpa [h1] using hr

theorem processGetTransaction_append (env : Env) (srv : XRouterServer) (p q : XRouterPacket)
    (extra : List Char) (offset : Nat) (currency r : String) (hd : q.data = p.data ++ extra)
    (hr : processGetTransaction env srv p offset currency = .ok r) :
    processGetTransaction env srv q offset currency = .ok r := by
  unfold processGetTransaction at hr ⊢
  rw [hd]
  cases h1 : cstrAt p.data offset with
  | error f => simp [h1] at hr
  | ok a => rw [cstrAt_append _ extra _ _ h1]; simpa [h1] using hr

theorem processGetAllBlocks_append (env : Env) (srv : XRouterServer) (p q : XRouterPacket)
    (extra : List Char) (offset : Nat) (currency r : String) (hd : q.data = p.data ++ extra)
    (hr : processGetAllBlocks env srv p offset currency = .ok r) :
    processGetAllBlocks env srv q offset currency = .ok r := by
  unfold processGetAllBlocks at hr ⊢
  rw [hd]
  cases h1 : cstrAt p.data offset with
  | error f => simp [h1] at hr
  | ok a => rw [cstrAt_append _ extra _ _ h1]; simpa [h1] using hr

theorem processGetBalance_append (env : Env) (srv : XRouterServer) (p q : XRouterPacket)
    (extra : List Char) (offset : Nat) (currency r : String) (hd : q.data = p.data ++ extra)
    (hr : processGetBalance env srv p offset currency = .ok r) :
    processGetBalance env srv q offset currency = .ok r := by
  unfold processGetBalance at hr ⊢
  rw [hd]
  cases h1 : cstrAt p.data offset with
  | error f => simp [h1] at hr
  | ok a => rw [cstrAt_append _ extra _ _ h1]; simpa [h1] using hr

theorem processSendTransaction_append (env : Env) (srv : XRouterServer) (p q : XRouterPacket)
    (extra : List Char) (offset : Nat) (currency r : String) (hd : q.data = p.data ++ extra)
    (hr : processSendTransaction env srv p offset currency = .ok r) :
    processSendTransaction env srv q offset currency = .ok r := by
  unfold processSendTransaction at hr ⊢
  rw [hd]
  cases h1 : cstrAt p.data offset with
  | error f => simp [h1] at hr
  | ok a => rw [cstrAt_append _ extra _ _ h1]; simpa [h1] using hr

theorem processGetAllTransactions_append (env : Env) (srv : XRouterServer)
    (p q : XRouterPacket) (extra : List Char) (offset : Nat) (currency r : String)
    (hd : q.data = p.data ++ extra)
    (hr : processGetAllTransactions env srv p offset currency = .ok r) :
    processGetAllTransactions env srv q offset currency = .ok r := by
  unfold processGetAllTransactions at hr ⊢
  rw [hd]
  cases h1 : cstrAt p.data offset with
  | error f => simp [h1] at hr
  | ok a =>
    cases h2 : cstrAt p.data (advance offset a) with
    | error f => simp [h1, h2] at hr
    | ok b =>
      rw [cstrAt_append _ extra _ _ h1]
      simp only []
      rw [cstrAt_append _ extra _ _ h2]
      simpa [h1, h2] using hr

theorem processGetBalanceUpdate_append (env : Env) (srv : XRouterServer)
    (p q : XRouterPacket) (extra : List Char) (offset : Nat) (currency r : String)
    (hd : q.data = p.data ++ extra)
    (hr : processGetBalanceUpdate env srv p offset currency = .ok r) :
    processGetBalanceUpdate env srv q offset currency = .ok r := by
  unfold processGetBalanceUpdate at hr ⊢
  rw [hd]
  cases h1 : cstrAt p.data offset with
  | error f => simp [h1] at hr
  | ok a =>
    cases h2 : cstrAt p.data (advance offset a) with
    | error f => simp [h1, h2] at hr
    | ok b =>
      rw [cstrAt_append _ extra _ _ h1]
      simp only []
      rw [cstrAt_append _ extra _ _ h2]
      simpa [h1, h2] using hr

theorem map_some_ok (x : Except Fault String) (r : Option String)
    (h : x.map some = .ok r) : ∃ s, x = .ok s ∧ r = some s := by
  cases x with
  | error f => simp [Except.map] at h
  | ok s => exact ⟨s, rfl, by simpa [Except.map] using h.symm⟩

theorem switchCommand_append (env : Env) (srv : XRouterServer) (p q : XRouterPacket)
    (extra : List Char) (offset : Nat) (currency : String) (r : Option String)
    (hc : q.command = p.command) (hd : q.data = p.data ++ extra)
    (hb : p.command ≠ .xrGetTransactionsBloomFilter)
    (hr : switchCommand env srv p offset currency = .ok r) :
    switchCommand env srv q offset currency = .ok r := by
  unfold switchCommand at hr ⊢
  rw [hc]
  cases hcmd : p.command <;> simp only [hcmd] at hr ⊢
  case xrReply => exact hr
  case other => exact hr
  case xrCustomCall => exact hr
  case xrGetBlockCount => exact hr
  case xrGetTransactionsBloomFilter => exact absurd hcmd hb
  case xrGetBlockHash =>
    obtain ⟨s, hs, rfl⟩ := map_some_ok _ _ hr
    rw [processGetBlockHash_append env srv p q extra offset currency s hd hs]; rfl
  case xrGetBlock =>
    obtain ⟨s, hs, rfl⟩ := map_some_ok _ _ hr
    rw [processGetBlock_append env srv p q extra offset currency s hd hs]; rfl
  case xrGetTransaction =>
    obtain ⟨s, hs, rfl⟩ := map_some_ok _ _ hr
    rw [processGetTransaction_append env srv p q extra offset currency s hd hs]; rfl
  case xrGetAllBlocks =>
    obtain ⟨s, hs, rfl⟩ := map_some_ok _ _ hr
    rw [processGetAllBlocks_append env srv p q extra offset currency s hd hs]; rfl
  case xrGetAllTransactions =>
    obtain ⟨s, hs, rfl⟩ := map_some_ok _ _ hr
    rw [processGetAllTransactions_append env srv p q extra offset currency s hd hs]; rfl
  case xrGetBalance =>
    obtain ⟨s, hs, rfl⟩ := map_some_ok _ _ hr
    rw [processGetBalance_append env srv p q extra offset currency s hd hs]; rfl
  case xrGetBalanceUpdate =>
    obtain ⟨s, hs, rfl⟩ := map_some_ok _ _ hr
    rw [processGetBalanceUpdate_append env srv p q extra offset currency s hd hs]; rfl
  case xrSendTransaction =>
    obtain ⟨s, hs, rfl⟩ := map_some_ok _ _ hr
    rw [processSendTransaction_append env srv p q extra offset currency s hd hs]; rfl

theorem customCall_append (env : Env) (cfg : XRouterSettings) (p q : XRouterPacket)
    (extra : List Char) (offset : Nat) (psettings : XRouterPluginSettings)
    (currency r : String) (hd : q.data = p.data ++ extra)
    (hr : (customCall env cfg p offset psettings currency).1 = .ok r) :
    customCall env cfg q offset psettings currency
      = customCall env cfg p offset psettings currency := by
  unfold customCall at hr ⊢
  rw [hd]
  cases h1 : cstrAt p.data offset with
  | error f => simp [h1] at hr
  | ok feetx =>
    cases h2 : readParams p.data (env.getMaxParamCount psettings).toNat
        (advance offset feetx) [] with
    | error f => simp [h1, h2] at hr
    | ok params =>
      rw [cstrAt_append _ extra _ _ h1]
      simp only []
      rw [readParams_append _ extra _ _ _ _ h2, h2]

theorem sendReply_returned (srv : XRouterServer) (cfg : XRouterSettings) (dos : List DoS)
    (node : CNode) (uuid : String) (r : Except Fault (Option String))
    (h : (sendReply srv cfg dos node uuid r).completion = .returned) : ∃ x, r = .ok x := by
  rcases r with f | x
  · simp [sendReply] at h
  · exact ⟨x, rfl⟩

theorem routeRequest_append (env : Env) (srv : XRouterServer) (cfg : XRouterSettings)
    (node : CNode) (p q : XRouterPacket) (extra : List Char) (time : Int)
    (uuid currency : String) (offset : Nat)
    (hc : q.command = p.command) (hd : q.data = p.data ++ extra)
    (hb : p.command ≠ .xrGetTransactionsBloomFilter)
    (hret : (routeRequest env srv cfg node p time uuid currency offset).completion = .returned) :
    routeRequest env srv cfg node q time uuid currency offset
      = routeRequest env srv cfg node p time uuid currency offset := by
  unfold routeRequest at hret ⊢
  rw [hc]
  by_cases hcmd : p.command = .xrCustomCall
  · simp only [hcmd, if_true] at hret ⊢
    obtain ⟨x, hx⟩ := sendReply_returned _ _ _ _ _ _ hret
    obtain ⟨r, hr, -⟩ := map_some_ok _ _ hx
    rw [customCall_append env _ p q extra offset _ currency r hd hr]
  · simp only [hcmd, if_false] at hret ⊢
    obtain ⟨x, hx⟩ := sendReply_returned _ _ _ _ _ _ hret
    rw [switchCommand_append env _ p q extra offset currency x hc hd hb hx, hx]

/-- C16, counterexample. A block-count request for `BTC` with the two extra fields `junk` and
`more` after the currency is admitted, dispatched and answered with the block count. -/
theorem extra_fields_answered_counterexample :
    Admitted demoEnv demoSettings (demoPacket .xrGetBlockCount ["u", "BTC", "junk", "more"])
        "u" "BTC" ∧
      (onMessageReceived demoEnv (addConnector demoServer demoConnector) demoSettings 7
        (demoPacket .xrGetBlockCount ["u", "BTC", "junk", "more"]) 0).sent
        = [(7, ⟨.xrReply, ["u", "result=12345"]⟩)] := by
  decide!

/-- C16, amended. The number of fields is not compared with the count of the command: bytes
after the declared fields are ignored. Let the packet `p` be admitted and handled to the end,
with a command other than the bloom-filter scan (whose filter is the rest of the packet). A
correctly signed packet `q` with the command and key of `p` and the data of `p` followed by
further bytes has the outcome of `p`: the same reply, penalties, state and settings. -/
theorem trailing_bytes_ignored (env : Env) (srv : XRouterServer) (cfg : XRouterSettings)
    (node : CNode) (p q : XRouterPacket) (extra : List Char) (time : Int)
    (uuid currency : String)
    (hadm : Admitted env cfg p uuid currency)
    (hret : (onMessageReceived env srv cfg node p time).completion = .returned)
    (hb : p.command ≠ .xrGetTransactionsBloomFilter)
    (hc : q.command = p.command) (hk : q.pubkey = p.pubkey) (hd : q.data = p.data ++ extra)
    (hsig : env.verify q = true) :
    onMessageReceived env srv cfg node q time = onMessageReceived env srv cfg node p time := by
  have hadm' : Admitted env cfg q uuid currency := by
    obtain ⟨-, hs, hu, hcur, ha⟩ := hadm
    refine ⟨hsig, verifyBlockRequirement_append env p q extra hk hd hs, ?_, ?_, ?_⟩
    · rw [hd]; exact cstrAt_append _ _ _ _ hu
    · rw [hd]; exact cstrAt_append _ _ _ _ hcur
    · rw [hc]; exact ha
  rw [onMessageReceived_of_admitted env srv cfg node p time uuid currency hadm] at hret ⊢
  rw [onMessageReceived_of_admitted env srv cfg node q time uuid currency hadm']
  exact routeRequest_append env srv cfg node p q extra time uuid currency _ hc hd hb hret

/-- Witness of C16: the block-count request with the extra field `junk` has the outcome of the
request without it. -/
theorem trailing_bytes_ignored_witness :
    (demoPacket .xrGetBlockCount ["u", "BTC", "junk"]).data
        = (demoPacket .xrGetBlockCount ["u", "BTC"]).data ++ ['j', 'u', 'n', 'k', NUL] ∧
      onMessageReceived demoEnv (addConnector demoServer demoConnector) demoSettings 7
          (demoPacket .xrGetBlockCount ["u", "BTC", "junk"]) 0
        = onMessageReceived demoEnv (addConnector demoServer demoConnector) demoSettings 7
          (demoPacket .xrGetBlockCount ["u", "BTC"]) 0 :=
  ⟨by decide,
    trailing_bytes_ignored demoEnv (addConnector demoServer demoConnector) demoSettings 7
      (demoPacket .xrGetBlockCount ["u", "BTC"]) (demoPacket .xrGetBlockCount ["u", "BTC", "junk"])
      ['j', 'u', 'n', 'k', NUL] 0 "u" "BTC" (by decide!) (by decide!) (by decide) rfl rfl
      (by decide) (by decide)⟩

/-! ## Disabled rate limiter, unavailable commands -/

/-- C17. For an admitted plugin call to a plugin whose timeout is negative, no penalty is
reported and the rate-limiter map is as before, whatever the map holds and whatever the time
of arrival; the timeout of the plugin is negative in the settings after the call as well, so
the same holds for every request of a sequence. A plugin without a `timeout` entry has the
timeout -1. -/
theorem negative_timeout_unlimited (env : Env) (srv : XRouterServer) (cfg : XRouterSettings)
    (node : CNode) (packet : XRouterPacket) (time : Int) (uuid currency : String)
    (hadm : Admitted env cfg packet uuid currency) (hcmd : packet.command = .xrCustomCall)
    (hneg : get_double env (getPluginSettings cfg currency).1 "timeout" (-1) < 0) :
    (onMessageReceived env srv cfg node packet time).dos = [] ∧
      (onMessageReceived env srv cfg node packet time).server.lastPacketsReceived
        = srv.lastPacketsReceived ∧
      get_double env
        (getPluginSettings (onMessageReceived env srv cfg node packet time).settings currency).1
        "timeout" (-1) < 0 ∧
      ∀ s : XRouterPluginSettings, s.m_pt "timeout" = none →
        get_double env s "timeout" (-1) = -1 := by
  obtain ⟨hset, -, hoff⟩ := onMessageReceived_limiter env srv cfg node packet time uuid
    currency hadm
  have hnot : ¬ limiterRuns env cfg packet.command currency := by
    rintro (h | h)
    · exact h hcmd
    · rw [rateTimeout, if_pos hcmd] at h
      exact absurd h (not_le.mpr hneg)
  obtain ⟨hmap, hdos⟩ := hoff hnot
  refine ⟨hdos, hmap, ?_, fun s hs => by simp [get_double, hs]⟩
  rw [hset, if_pos hcmd, getPluginSettings_again]
  exact hneg

/-- Witness of C17: a call of the plugin `mix`, which has no timeout entry, by peer 7. -/
theorem negative_timeout_unlimited_witness :
    (onMessageReceived demoEnv demoServerSeen demoPlugins 7
        (demoPacket .xrCustomCall ["u", "mix", "fee", "a", "1", "true"]) 5).dos = [] ∧
      (onMessageReceived demoEnv demoServerSeen demoPlugins 7
        (demoPacket .xrCustomCall ["u", "mix", "fee", "a", "1", "true"]) 5).server.lastPacketsReceived
        = demoServerSeen.lastPacketsReceived :=
  ⟨(negative_timeout_unlimited demoEnv demoServerSeen demoPlugins 7
      (demoPacket .xrCustomCall ["u", "mix", "fee", "a", "1", "true"]) 5 "u" "mix"
      (by decide) (by decide) (by decide!)).1,
    (negative_timeout_unlimited demoEnv demoServerSeen demoPlugins 7
      (demoPacket .xrCustomCall ["u", "mix", "fee", "a", "1", "true"]) 5 "u" "mix"
      (by decide) (by decide) (by decide!)).2.1⟩

/-- C18. A packet that passes the signature and stake checks and whose command is not
available for its currency is dropped: the call returns with nothing sent and no penalty
reported, and the server (the rate-limiter map included) and the settings are as before. -/
theorem unavailable_command_dropped (env : Env) (srv : XRouterServer) (cfg : XRouterSettings)
    (node : CNode) (packet : XRouterPacket) (time : Int) (uuid currency : String)
    (hv : env.verify packet = true) (hs : verifyBlockRequirement env packet = .ok true)
    (hu : cstrAt packet.data 36 = .ok uuid)
    (hc : cstrAt packet.data (advance 36 uuid) = .ok currency)
    (ha : env.isAvailableCommand cfg packet.command currency = false) :
    onMessageReceived env srv cfg node packet time = ⟨srv, cfg, [], [], .returned⟩ := by
  simp [onMessageReceived, hv, hs, hu, hc, ha]

/-- Witness of C18: a block-count request where no command is available. -/
theorem unavailable_command_dropped_witness :
    onMessageReceived closedEnv demoServerSeen demoSettings 7
        (demoPacket .xrGetBlockCount ["u", "BTC"]) 5
      = ⟨demoServerSeen, demoSettings, [], [], .returned⟩ :=
  unavailable_command_dropped closedEnv demoServerSeen demoSettings 7
    (demoPacket .xrGetBlockCount ["u", "BTC"]) 5 "u" "BTC" (by decide) (by decide) (by decide)
    (by decide) (by decide)

/-! ## The argument list of the rpc path -/

/-- A list at an index: nothing from there on, or an element and the rest. -/
theorem drop_cases {α : Type} (l : List α) (i : Nat) :
    (l[i]? = none ∧ l.drop i = [] ∧ l.drop (i + 1) = []) ∨
      ∃ x, l[i]? = some x ∧ l.drop i = x :: l.drop (i + 1) := by
  by_cases h : i < l.length
  · exact Or.inr ⟨l[i], List.getElem?_eq_getElem h, List.drop_eq_getElem_cons h⟩
  · exact Or.inl ⟨List.getElem?_eq_none (by omega), List.drop_eq_nil_of_le (by omega),
      List.drop_eq_nil_of_le (by omega)⟩

/-- An iteration of the coercion loop that goes on to the next position: the value is empty
and the arguments are unchanged, or the coerced value of the parameter, if there is one, is
appended. -/
theorem rpcParam_next (paramtypes params : List String) (i : Nat) (acc next : Array)
    (h : rpcParam paramtypes params i acc = .ok (.inr next)) :
    ∃ p, params[i]? = some p ∧
      ((p = "" ∧ next = acc) ∨
        (p ≠ "" ∧ ∃ t, paramtypes[i]? = some t ∧
          next = acc ++ (coercedValue t p).toList ∧
          ((t = "string" ∨ t = "int" ∨ t = "bool") → (coercedValue t p).isSome = true))) := by
  unfold rpcParam at h
  cases hp : params[i]? with
  | none => simp [hp] at h
  | some p =>
    refine ⟨p, rfl, ?_⟩
    simp only [hp] at h
    by_cases hempty : p = ""
    · left
      simp only [hempty, if_true, Except.ok.injEq, Sum.inr.injEq] at h
      exact ⟨hempty, h.symm⟩
    · right
      simp only [if_neg hempty] at h
      cases ht : paramtypes[i]? with
      | none => simp [ht] at h
      | some t =>
        refine ⟨hempty, t, rfl, ?_⟩
        simp only [ht] at h
        by_cases h1 : t = "string"
        · simp only [h1, if_true, Except.ok.injEq, Sum.inr.injEq] at h
          simp [coercedValue, h1, ← h]
        · simp only [if_neg h1] at h
          by_cases h2 : t = "int"
          · simp only [h2, if_true] at h
            cases hs : stoi p with
            | error f => simp [hs] at h
            | ok v =>
              simp only [hs, Except.ok.injEq, Sum.inr.injEq] at h
              simp [coercedValue, h2, hs, ← h]
          · simp only [if_neg h2] at h
            by_cases h3 : t = "bool"
            · simp only [h3, if_true] at h
              by_cases hb : p = "true" ∨ p = "false"
              · have hnext : next = acc ++ [Value.bool true] := by
                  rcases hb with hb | hb <;> simp [hb] at h <;> exact h.symm
                simp [coercedValue, h3, hb, hnext]
              · have hb1 : p ≠ "true" := fun e => hb (Or.inl e)
                have hb2 : p ≠ "false" := fun e => hb (Or.inr e)
                simp [hb1, hb2] at h
            · simp only [if_neg h3, Except.ok.injEq, Sum.inr.injEq] at h
              simp [coercedValue, h1, h2, h3, ← h]

/-- The completed coercion loop from position `i`: the arguments are those it started with,
followed by the coerced values of the non-empty parameters it went through; when every
declared type is `string`, `int` or `bool`, it appended one argument per non-empty
parameter. -/
theorem rpcParams_expected (paramtypes params : List String) :
    ∀ (n i : Nat) (acc r : Array), rpcParams paramtypes params n i acc = .ok (.inr r) →
      r = acc ++ ((((params.drop i).take n).zip (paramtypes.drop i)).filter
          (fun pt => pt.1 ≠ "")).filterMap (fun pt => coercedValue pt.2 pt.1) ∧
        ((∀ t ∈ paramtypes, t = "string" ∨ t = "int" ∨ t = "bool") →
          r.length = acc.length + (((params.drop i).take n).filter (fun p => p ≠ "")).length) := by
  intro n
  induction n with
  | zero =>
    intro i acc r h
    simp only [rpcParams, Except.ok.injEq, Sum.inr.injEq] at h
    simp [h]
  | succ n ih =>
    intro i acc r h
    simp only [rpcParams] at h
    rcases hstep : rpcParam paramtypes params i acc with f | msg | next
    · simp [hstep] at h
    · simp [hstep] at h
    · rw [hstep] at h
      obtain ⟨hr, hlen⟩ := ih (i + 1) next r h
      obtain ⟨p, hp, hcase⟩ := rpcParam_next paramtypes params i acc next hstep
      have hdrop : params.drop i = p :: params.drop (i + 1) := by
        rcases drop_cases params i with ⟨hnone, -, -⟩ | ⟨x, hx, hd⟩
        · rw [hp] at hnone; exact absurd hnone (by simp)
        · rw [hp] at hx; cases hx; exact hd
      rw [hdrop, List.take_succ_cons]
      rcases hcase with ⟨hempty, hnext⟩ | ⟨hne, t, ht, hnext, hsome⟩
      · subst hnext
        refine ⟨?_, fun htypes => ?_⟩
        · rcases drop_cases paramtypes i with ⟨-, hd0, hd1⟩ | ⟨x, -, hd⟩
          · rw [hd1] at hr
            rw [hd0, hr]
            simp
          · rw [hd, hr]
            simp [hempty]
        · rw [hlen htypes]
          simp [hempty]
      · have hd : paramtypes.drop i = t :: paramtypes.drop (i + 1) := by
          rcases drop_cases paramtypes i with ⟨hnone, -, -⟩ | ⟨x, hx, hd⟩
          · rw [ht] at hnone; exact absurd hnone (by simp)
          · rw [ht] at hx; cases hx; exact hd
        refine ⟨?_, fun htypes => ?_⟩
        · rw [hd, hr, hnext]
          cases hv : coercedValue t p <;> simp [hne, hv]
        · have hin := hsome (htypes t (List.getElem?_mem ht))
          rw [hlen htypes, hnext]
          cases hv : coercedValue t p with
          | none => simp [hv] at hin
          | some v => simp [hne]; omega

/-- C19. In the rpc path of `processCustomCall`, when the coercion loop completes (no coercion
fails and no index leaves its list), the argument list handed to the RPC collaborator is the
list of the coerced values of the non-empty entries among the first `maxParamCount`
parameters, in their order; when every declared type is `string`, `int` or `bool`, its length
is the number of non-empty entries among them. -/
theorem rpc_argument_list (env : Env) (cfg : XRouterSettings) (name : String)
    (params : List String) (jsonparams : Array)
    (hplug : env.hasPlugin cfg name = true)
    (htype : env.getParam (getPluginSettings cfg name).1 "type" "" = "rpc")
    (hloop : rpcParams (splitComma (env.getParam (getPluginSettings cfg name).1 "paramsType" ""))
      params (env.getMaxParamCount (getPluginSettings cfg name).1).toNat 0 []
      = .ok (.inr jsonparams)) :
    (processCustomCall env cfg name params).1 =
        .ok (env.write_string (.obj (env.CallRPC
          (env.getParam (getPluginSettings cfg name).1 "rpcUser" "")
          (env.getParam (getPluginSettings cfg name).1 "rpcPassword" "")
          (env.getParam (getPluginSettings cfg name).1 "rpcIp" "127.0.0.1")
          (env.getParam (getPluginSettings cfg name).1 "rpcPort" "")
          (env.getParam (getPluginSettings cfg name).1 "rpcCommand" "")
          jsonparams))) ∧
      jsonparams = expectedArguments
        (splitComma (env.getParam (getPluginSettings cfg name).1 "paramsType" "")) params
        (env.getMaxParamCount (getPluginSettings cfg name).1).toNat ∧
      ((∀ t ∈ splitComma (env.getParam (getPluginSettings cfg name).1 "paramsType" ""),
          t = "string" ∨ t = "int" ∨ t = "bool") →
        jsonparams.length =
          ((params.take (env.getMaxParamCount (getPluginSettings cfg name).1).toNat).filter
            (fun p => p ≠ "")).length) := by
  obtain ⟨hr, hlen⟩ := rpcParams_expected _ params _ 0 [] jsonparams hloop
  refine ⟨?_, ?_, fun htypes => ?_⟩
  · rw [processCustomCall_rpc env cfg name params hplug htype, hloop]
  · simpa [expectedArguments] using hr
  · simpa using hlen htypes

/-- Witness of C19: the plugin `mix` called with a text, an empty value and `false`. -/
theorem rpc_argument_list_witness :
    demoEnv.hasPlugin demoPlugins "mix" = true ∧
      [Value.str "a", Value.bool true] = expectedArguments
        (splitComma (demoEnv.getParam (getPluginSettings demoPlugins "mix").1 "paramsType" ""))
        ["a", "", "false"] (demoEnv.getMaxParamCount (getPluginSettings demoPlugins "mix").1).toNat ∧
      ([Value.str "a", Value.bool true] : Array).length
        = ((["a", "", "false"].take
            (demoEnv.getMaxParamCount (getPluginSettings demoPlugins "mix").1).toNat).filter
            (fun p => p ≠ "")).length :=
  ⟨by decide,
    (rpc_argument_list demoEnv demoPlugins "mix" ["a", "", "false"]
      [Value.str "a", Value.bool true] (by decide) (by decide) rfl).2.1,
    (rpc_argument_list demoEnv demoPlugins "mix" ["a", "", "false"]
      [Value.str "a", Value.bool true] (by decide) (by decide) rfl).2.2 (by decide)⟩

/-! ## The command line of the shell path -/

/-- The loop of the shell path over `n` parameters from position `i`, all inside the list. -/
theorem shellCommand_expected (params : List String) :
    ∀ (n i : Nat) (cmd : String), i + n ≤ params.length →
      shellCommand params n i cmd = .ok (expectedCommandLine cmd ((params.drop i).take n)) := by
  intro n
  induction n with
  | zero => intro i cmd _; simp [shellCommand, expectedCommandLine]
  | succ n ih =>
    intro i cmd hlen
    have hi : i < params.length := by omega
    rw [List.drop_eq_getElem_cons hi, List.take_succ_cons]
    simp only [shellCommand, List.getElem?_eq_getElem hi, expectedCommandLine, List.foldl_cons]
    rw [ih (i + 1) _ (by omega), String.append_assoc]
    rfl

/-- C20. In the shell path of `processCustomCall`, with at least `maxParamCount` parameters,
the command line given to the shell collaborator is the base command of the plugin followed,
for each of the first `maxParamCount` parameters in order, by one space and the parameter,
empty or not; the call returns what the collaborator returns. With the base `echo` and the
parameters `a`, empty and `b` the command line is `echo a  b`. -/
theorem shell_command_line (env : Env) (cfg : XRouterSettings) (name : String)
    (params : List String)
    (hplug : env.hasPlugin cfg name = true)
    (htype : env.getParam (getPluginSettings cfg name).1 "type" "" = "shell")
    (hlen : (env.getMaxParamCount (getPluginSettings cfg name).1).toNat ≤ params.length) :
    (processCustomCall env cfg name params).1 =
        .ok (env.CallCMD (expectedCommandLine
          (env.getParam (getPluginSettings cfg name).1 "cmd" "")
          (params.take (env.getMaxParamCount (getPluginSettings cfg name).1).toNat))) ∧
      expectedCommandLine "echo" ["a", "", "b"] = "echo a  b" := by
  have hloop := shellCommand_expected params
    (env.getMaxParamCount (getPluginSettings cfg name).1).toNat 0
    (env.getParam (getPluginSettings cfg name).1 "cmd" "") (by omega)
  rw [List.drop_zero] at hloop
  refine ⟨?_, by decide⟩
  simp only [processCustomCall, hplug, htype, hloop]
  simp

/-- Witness of C20: the plugin `sh` with the base command `echo`, called with `a` and an
empty parameter. -/
theorem shell_command_line_witness :
    demoEnv.getParam (getPluginSettings demoPlugins "sh").1 "cmd" "" = "echo" ∧
      (processCustomCall demoEnv demoPlugins "sh" ["a", ""]).1 =
        .ok (demoEnv.CallCMD (expectedCommandLine
          (demoEnv.getParam (getPluginSettings demoPlugins "sh").1 "cmd" "")
          (["a", ""].take (demoEnv.getMaxParamCount (getPluginSettings demoPlugins "sh").1).toNat))) ∧
      (processCustomCall demoEnv demoPlugins "sh" ["a", ""]).1 = .ok "echo a " :=
  ⟨by decide,
    (shell_command_line demoEnv demoPlugins "sh" ["a", ""] (by decide) (by decide)
      (by decide)).1,
    by decide⟩

/-! ## The plugin registry -/

/-- C21, at a failing input. No plugin is configured and the plugin list is empty. After the
custom-call packet for `nope` the plugin map has an entry for `nope`, inserted by the settings
look-up of line 214, while the plugin list is still empty: the names with an entry are no
longer those of the plugin list. A packet for the configured plugin `mix` leaves its entry and
the list as they are. -/
theorem custom_call_inserts_plugin_entry :
    Admitted demoEnv demoSettings (demoPacket .xrCustomCall ["u", "nope", "fee"]) "u" "nope" ∧
      (demoSettings.plugins "nope").isSome = false ∧
      demoSettings.pluginList = [] ∧
      ((onMessageReceived demoEnv demoServer demoSettings 7
        (demoPacket .xrCustomCall ["u", "nope", "fee"]) 0).settings.plugins "nope").isSome
        = true ∧
      (onMessageReceived demoEnv demoServer demoSettings 7
        (demoPacket .xrCustomCall ["u", "nope", "fee"]) 0).settings.pluginList = [] ∧
      (onMessageReceived listedEnv demoServer demoSettings 7
        (demoPacket .xrCustomCall ["u", "nope", "fee"]) 0).sent
        = [(7, ⟨.xrReply, ["u", "Custom call not found"]⟩)] ∧
      ((onMessageReceived listedEnv demoServer demoSettings 7
        (demoPacket .xrCustomCall ["u", "nope", "fee"]) 0).settings.plugins "nope").isSome
        = true ∧
      (onMessageReceived demoEnv demoServer demoPlugins 7
        (demoPacket .xrCustomCall ["u", "mix", "fee", "a", "1", "true"]) 0).settings.pluginList
        = demoPlugins.pluginList := by
  decide!

/-! ## The output index of the stake reference -/

/-- C22, at failing inputs. The transaction of bytes `a` is in the UTXO view with two outputs:
for the output index 3 `verifyBlockRequirement` returns false, and for the index 2, the
number of outputs, the check `vout > coins.vout.size()` passes and the output list is indexed
outside its bounds. The transaction of bytes `b` is found by the look-up with one output: for
the indices 1 and 5 the output list is indexed outside its bounds, without any check. -/
theorem vout_at_size_is_indexed :
    verifyBlockRequirement demoEnv ⟨.xrGetBlockCount, ['k'], ['s'], demoData 'a' 3 ["u", "BTC"]⟩
        = .ok false ∧
      verifyBlockRequirement demoEnv
        ⟨.xrGetBlockCount, ['k'], ['s'], demoData 'a' 2 ["u", "BTC"]⟩
        = .error .undefinedBehaviour ∧
      verifyBlockRequirement demoEnv
        ⟨.xrGetBlockCount, ['k'], ['s'], demoData 'b' 1 ["u", "BTC"]⟩
        = .error .undefinedBehaviour ∧
      verifyBlockRequirement demoEnv
        ⟨.xrGetBlockCount, ['k'], ['s'], demoData 'b' 5 ["u", "BTC"]⟩
        = .error .undefinedBehaviour ∧
      (onMessageReceived demoEnv demoServer demoSettings 7
        ⟨.xrGetBlockCount, ['k'], ['s'], demoData 'a' 2 ["u", "BTC"]⟩ 0).completion
        = .aborted .undefinedBehaviour := by
  decide

/-! ## Frame of the rate limiter -/

theorem setLastPacket_other (m : CNode → Option (String → Option Int)) (node other : CNode)
    (keystr key : String) (time : Int) (h : other ≠ node ∨ key ≠ keystr) :
    (setLastPacket m node keystr time other).bind (fun perNode => perNode key)
      = (m other).bind (fun perNode => perNode key) := by
  unfold setLastPacket
  by_cases hn : other = node
  · subst hn
    have hk : key ≠ keystr := by
      rcases h with h | h
      · exact absurd rfl h
      · exact h
    cases hm : m other <;> simp [Function.update_noteq hk]
  · rw [Function.update_noteq hn]

/-- A packet that does not pass the gates leaves the server as it is. -/
theorem onMessageReceived_not_admitted (env : Env) (srv : XRouterServer)
    (cfg : XRouterSettings) (node : CNode) (packet : XRouterPacket) (time : Int)
    (h : ¬ ∃ uuid currency, Admitted env cfg packet uuid currency) :
    (onMessageReceived env srv cfg node packet time).server = srv := by
  unfold onMessageReceived
  split
  · rfl
  · next hv =>
    split
    · rfl
    · rfl
    · next hs =>
      split
      · rfl
      · next uuid hu =>
        split
        · rfl
        · next currency hc =>
          split
          · rfl
          · next ha =>
            exact absurd ⟨uuid, currency, by simpa using hv, hs, hu, hc, by simpa using ha⟩ h

/-- C23. After `onMessageReceived` for a packet of the peer `node` at `time`, every pair of a
peer and a key has the stored time it had before, except at most the pair of `node` and the
rate-limit key of the packet, which then holds `time`. So no stored time is removed, and only
an admitted packet changes one. -/
theorem rate_limiter_frame (env : Env) (srv : XRouterServer) (cfg : XRouterSettings)
    (node : CNode) (packet : XRouterPacket) (time : Int) (other : CNode) (key : String) :
    lastPacket (onMessageReceived env srv cfg node packet time).server other key
        = lastPacket srv other key ∨
      (other = node ∧
        lastPacket (onMessageReceived env srv cfg node packet time).server other key = some time ∧
        ∃ uuid currency, Admitted env cfg packet uuid currency ∧
          key = rateKey env packet.command currency) := by
  by_cases hadm : ∃ uuid currency, Admitted env cfg packet uuid currency
  · obtain ⟨uuid, currency, h⟩ := hadm
    obtain ⟨-, hrun, hoff⟩ := onMessageReceived_limiter env srv cfg node packet time uuid
      currency h
    by_cases hr : limiterRuns env cfg packet.command currency
    · obtain ⟨hmap, -⟩ := hrun hr
      by_cases hsame : other = node ∧ key = rateKey env packet.command currency
      · obtain ⟨hn, hk⟩ := hsame
        right
        refine ⟨hn, ?_, uuid, currency, h, hk⟩
        rw [hn, hk]
        exact lastPacket_setLastPacket _ _ _ _ _ hmap
      · left
        unfold lastPacket
        rw [hmap]
        exact setLastPacket_other _ _ _ _ _ _ (by tauto)
    · left
      unfold lastPacket
      rw [(hoff hr).1]
  · left
    rw [onMessageReceived_not_admitted env srv cfg node packet time hadm]

end XRouter
